import Mathlib

/-!
Verification of the Yahoo season extractor (`scripts/extract_yahoo.py`).

A shallow embedding of the response-normalisation and season-reconstruction
core of `scripts/extract_yahoo.py`, together with proofs of the spec's
claims about it.

Modelling conventions:

* JSON values are modelled by the inductive `Json`.  Numeric JSON values are
  modelled as integers (`Int`); every numeric literal appearing in the
  claims is an integer, and the code only compares or copies point values,
  so the integer-valued fragment is faithful for everything proved here.
* Python dicts are modelled as insertion-ordered association lists with
  overwrite-on-assignment (`dictSet`); `d.get(k)`/`d.get(k, v)` become
  `dictGet`/`dictGetD`.
* Python exceptions are modelled with `Option`/`Except Unit`: an operation
  that can raise returns `none`/`.error ()`, and the caller either
  propagates the failure or converts it to the documented default exactly
  as the corresponding `try`/`except` block does.
-/

/-- A JSON value, as produced by `resp.json()`.  Numbers are modelled as
integers (see the header comment). -/
inductive Json where
  | null : Json
  | bool : Bool → Json
  | num : Int → Json
  | str : String → Json
  | arr : List Json → Json
  | obj : List (String × Json) → Json
  deriving Repr

mutual

/-- Python `==` on JSON values: structural equality. -/
def Json.beq : Json → Json → Bool
  | .null, .null => true
  | .bool x, .bool y => x == y
  | .num x, .num y => x == y
  | .str x, .str y => x == y
  | .arr xs, .arr ys => Json.beqList xs ys
  | .obj xs, .obj ys => Json.beqObj xs ys
  | _, _ => false

def Json.beqList : List Json → List Json → Bool
  | [], [] => true
  | x :: xs, y :: ys => Json.beq x y && Json.beqList xs ys
  | _, _ => false

def Json.beqObj : List (String × Json) → List (String × Json) → Bool
  | [], [] => true
  | (k1, v1) :: xs, (k2, v2) :: ys => k1 == k2 && Json.beq v1 v2 && Json.beqObj xs ys
  | _, _ => false

end

/-- A Python dict whose keys are strings: an insertion-ordered association
list.  All dicts built by the extractor have unique keys by construction
(assignments go through `dictSet`). -/
abbrev Dict := List (String × Json)

/-- `d[k]` / `k in d`: first binding of `k`, if any. -/
def dictGet : Dict → String → Option Json
  | [], _ => none
  | (k, v) :: rest, key => if k = key then some v else dictGet rest key

/-- Python `d.get(k, default)`. -/
def dictGetD (d : Dict) (k : String) (dflt : Json) : Json :=
  (dictGet d k).getD dflt

/-- Python `d[k] = v`: overwrite in place if the key exists, else append. -/
def dictSet : Dict → String → Json → Dict
  | [], k, v => [(k, v)]
  | (k', v') :: rest, k, v =>
      if k' = k then (k', v) :: rest else (k', v') :: dictSet rest k v

/-- Python `d.update(s)`: assign every binding of `s` in order. -/
def dictUpdate (d s : Dict) : Dict :=
  s.foldl (fun acc kv => dictSet acc kv.1 kv.2) d

/-- Python truthiness of a JSON value. -/
def jsonTruthy : Json → Bool
  | .null => false
  | .bool b => b
  | .num n => n ≠ 0
  | .str s => s ≠ ""
  | .arr xs => !xs.isEmpty
  | .obj kvs => !kvs.isEmpty

/-- Accumulates decimal digits; fails at the first non-digit. -/
def parseDigitsAux : List Char → Nat → Option Nat
  | [], acc => some acc
  | c :: cs, acc =>
      if c.isDigit then parseDigitsAux cs (acc * 10 + (c.toNat - 48)) else none

/-- A non-empty all-digit character list, as a number. -/
def pyIntDigits : List Char → Option Nat
  | [] => none
  | cs => parseDigitsAux cs 0

/-- Python `int(s)` on a string: optional sign followed by decimal digits
(whitespace stripping and underscores are not modelled; no claim depends
on them). -/
def pyIntOfString (s : String) : Option Int :=
  match s.toList with
  | '-' :: cs => (pyIntDigits cs).map (fun n => -(n : Int))
  | '+' :: cs => (pyIntDigits cs).map (fun n => (n : Int))
  | cs => (pyIntDigits cs).map (fun n => (n : Int))

/-- Python `int(x)` on a JSON value; `none` models a raised exception.
(Strings are parsed as decimal integers; the numbers handled by the
extractor are integer-valued.) -/
def pyInt : Json → Option Int
  | .num n => some n
  | .str s => pyIntOfString s
  | .bool b => some (if b then 1 else 0)
  | _ => none

/-- Python `float(x)` on a JSON value, in the integer-valued model;
`none` models a raised exception. -/
def pyFloat : Json → Option Int
  | .num n => some n
  | .str s => pyIntOfString s
  | .bool b => some (if b then 1 else 0)
  | _ => none

mutual

/-- Python `repr(x)` of a JSON value (up to string escaping, which the
extractor never relies on). -/
def pyRepr : Json → String
  | .null => "None"
  | .bool b => if b then "True" else "False"
  | .num n => toString n
  | .str s => "'" ++ s ++ "'"
  | .arr xs => "[" ++ pyReprList xs ++ "]"
  | .obj kvs => "\x7b" ++ pyReprObj kvs ++ "\x7d"

def pyReprList : List Json → String
  | [] => ""
  | [x] => pyRepr x
  | x :: rest => pyRepr x ++ ", " ++ pyReprList rest

def pyReprObj : List (String × Json) → String
  | [] => ""
  | [(k, v)] => "'" ++ k ++ "': " ++ pyRepr v
  | (k, v) :: rest => "'" ++ k ++ "': " ++ pyRepr v ++ ", " ++ pyReprObj rest

end

/-- Python `str(x)` of a JSON value (as interpolated by an f-string). -/
def pyStr : Json → String
  | .str s => s
  | j => pyRepr j

/-- Python `x.get(k, dflt)` where `x` is an arbitrary JSON value:
raises (`none`) unless `x` is a dict. -/
def pyDictGetD (x : Json) (k : String) (dflt : Json) : Option Json :=
  match x with
  | .obj kvs => some (dictGetD kvs k dflt)
  | _ => none

/-- Python `x.get(k)` (single-argument form, default `None`). -/
def pyDictGet (x : Json) (k : String) : Option Json :=
  pyDictGetD x k .null

/-- Python `len(x)`: raises (`none`) unless `x` is sized. -/
def pyLen (x : Json) : Option Nat :=
  match x with
  | .arr xs => some xs.length
  | .str s => some s.length
  | .obj kvs => some kvs.length
  | _ => none

/-- Python `x[i]` for a non-negative integer index: raises (`none`) unless
`x` is a list (or string) and the index is in range. -/
def pyIndex (x : Json) (i : Nat) : Option Json :=
  match x with
  | .arr xs => xs.get? i
  | .str s => (s.toList.get? i).map (fun c => .str (String.mk [c]))
  | _ => none

/-- Python `for e in x`: the sequence iterated over, or `none` if `x` is
not iterable.  Iterating a dict yields its keys. -/
def pyIter (x : Json) : Option (List Json) :=
  match x with
  | .arr xs => some xs
  | .str s => some (s.toList.map (fun c => .str (String.mk [c])))
  | .obj kvs => some (kvs.map (fun kv => .str kv.1))
  | _ => none

/-- Python `range(x)`: the count, or `none` (raise) if `x` is not an
integer.  A negative count yields an empty range. -/
def pyRangeCount (x : Json) : Option Nat :=
  match x with
  | .num n => some n.toNat
  | .bool b => some (if b then 1 else 0)
  | _ => none

/-- A JSON value usable as a Python dict key (hashable). -/
def jsonHashable : Json → Bool
  | .arr _ => false
  | .obj _ => false
  | _ => true

/-- Lift a Python operation that may raise (`Option`) into the exception
monad. -/
def liftO : Option α → Except Unit α
  | some a => .ok a
  | none => .error ()

/-! ## League-settings extractor (`_parse_league_settings`) -/

/-- `for s in setting_list: if isinstance(s, dict): settings.update(s)`. -/
def settingsFromList (sl : List Json) (settings : Dict) : Dict :=
  sl.foldl (fun acc s => match s with | .obj skvs => dictUpdate acc skvs | _ => acc) settings

/-- `if key in item: settings[key] = int(item[key])` for one recognised key. -/
def settingsSetInt (ikvs : Dict) (key : String) (settings : Dict) : Except Unit Dict :=
  match dictGet ikvs key with
  | some v => do
      let n ← liftO (pyInt v)
      pure (dictSet settings key (.num n))
  | none => pure settings

/-- The body of `for item in league_data` in `_parse_league_settings`. -/
def settingsItemStep (settings : Dict) (item : Json) : Except Unit Dict :=
  match item with
  | .obj ikvs => do
      let s := match dictGet ikvs "settings" with
        | some (.arr sl) => settingsFromList sl settings
        | some _ => settings
        | none => settings
      let s ← settingsSetInt ikvs "num_teams" s
      let s ← settingsSetInt ikvs "end_week" s
      let s ← settingsSetInt ikvs "start_week" s
      let s ← settingsSetInt ikvs "playoff_start_week" s
      pure s
  | _ => pure settings

/-- `for key in [...]: if key in meta: settings[key] = int(meta[key])`. -/
def settingsFromMeta (meta : Dict) (settings : Dict) : Except Unit Dict := do
  let s ← settingsSetInt meta "num_teams" settings
  let s ← settingsSetInt meta "end_week" s
  let s ← settingsSetInt meta "start_week" s
  let s ← settingsSetInt meta "playoff_start_week" s
  pure s

/-- The `try` body of `_parse_league_settings`; `.error ()` models a raised
exception (caught by the surrounding `except`). -/
def parseLeagueSettingsE (data : Json) : Except Unit Dict := do
  let fc ← liftO (pyDictGetD data "fantasy_content" (.obj []))
  let ld ← liftO (pyDictGetD fc "league" (.arr []))
  let items ← liftO (pyIter ld)
  let s ← items.foldlM settingsItemStep ([] : Dict)
  if jsonTruthy ld then do
    let x ← liftO (pyIndex ld 0)
    match x with
    | .obj meta => settingsFromMeta meta s
    | _ => pure s
  else
    pure s

/-- The default settings dict returned by the `except` branch of
`_parse_league_settings`. -/
def defaultSettingsDict : Dict :=
  [("playoff_start_week", .num 14), ("end_week", .num 16), ("num_teams", .num 10)]

/-- `_parse_league_settings`: the parsed settings dict, or the conservative
default on any exception. -/
def parseLeagueSettings (data : Json) : Dict :=
  match parseLeagueSettingsE data with
  | .ok s => s
  | .error _ => defaultSettingsDict

/-- The effective settings computed at the top of `extract_season_data`:
`int(settings_raw.get("num_teams", 10))`, `int(... "playoff_start_week", 14)`,
`int(... "end_week", 16)`; `none` models an exception (season aborted). -/
def effectiveLeagueSettings (data : Json) : Option (Int × Int × Int) := do
  let sr := parseLeagueSettings data
  let nt ← pyInt (dictGetD sr "num_teams" (.num 10))
  let ps ← pyInt (dictGetD sr "playoff_start_week" (.num 14))
  let ew ← pyInt (dictGetD sr "end_week" (.num 16))
  some (nt, ps, ew)

/-! ## Team-entry extractor (`_parse_team_entry`) -/

/-- The metadata-key loop plus manager handling for one dict-typed `sub`
inside a list-typed item of a team entry. -/
def applyMetaSub (skvs : Dict) (team : Dict) : Except Unit Dict := do
  let t := match dictGet skvs "team_key" with
    | some v => dictSet team "team_key" v
    | none => team
  let t := match dictGet skvs "team_id" with
    | some v => dictSet t "team_id" v
    | none => t
  let t := match dictGet skvs "name" with
    | some v => dictSet t "team_name" v
    | none => t
  let t := match dictGet skvs "url" with
    | some v => dictSet t "url" v
    | none => t
  let t ← match dictGet skvs "team_logos" with
    | some (.arr (logo :: _)) =>
        (match logo with
         | .obj lkvs =>
             (match dictGet lkvs "team_logo" with
              | some tl => do
                  let u ← liftO (pyDictGet tl "url")
                  pure (dictSet t "team_logo" u)
              | none => pure t)
         | _ => pure t)
    | some _ => pure t
    | none => pure t
  let t := match dictGet skvs "is_owned_by_current_login" with
    | some v => dictSet t "is_owned_by_current_login" v
    | none => t
  match dictGet skvs "managers" with
  | some (.arr (mgr :: _)) =>
      (match mgr with
       | .obj mkvs =>
           (match dictGet mkvs "manager" with
            | some mgrData => do
                let nick ← liftO (pyDictGetD mgrData "nickname" (.str "Unknown"))
                let guid ← liftO (pyDictGetD mgrData "guid" (.str ""))
                pure (dictSet (dictSet t "manager_name" nick) "manager_guid" guid)
            | none => pure t)
       | _ => pure t)
  | some _ => pure t
  | none => pure t

/-- The `team_standings` / `team_points` handling for one dict-typed item of
a team entry. -/
def applyStandingsItem (ikvs : Dict) (team : Dict) : Except Unit Dict := do
  let t ← match dictGet ikvs "team_standings" with
    | some st => do
        let rank ← liftO (pyDictGet st "rank")
        let t := dictSet team "rank" rank
        let outcome ← liftO (pyDictGetD st "outcome_totals" (.obj []))
        let w ← liftO (pyDictGetD outcome "wins" (.num 0))
        let wn ← liftO (pyInt w)
        let t := dictSet t "wins" (.num wn)
        let l ← liftO (pyDictGetD outcome "losses" (.num 0))
        let ln ← liftO (pyInt l)
        let t := dictSet t "losses" (.num ln)
        let ti ← liftO (pyDictGetD outcome "ties" (.num 0))
        let tn ← liftO (pyInt ti)
        let t := dictSet t "ties" (.num tn)
        let pf ← liftO (pyDictGetD st "points_for" (.num 0))
        let pfn ← liftO (pyFloat pf)
        let t := dictSet t "points_for" (.num pfn)
        let pa ← liftO (pyDictGetD st "points_against" (.num 0))
        let pan ← liftO (pyFloat pa)
        pure (dictSet t "points_against" (.num pan))
    | none => pure team
  match dictGet ikvs "team_points" with
  | some tp => do
      let tot ← liftO (pyDictGetD tp "total" (.num 0))
      let f ← liftO (pyFloat tot)
      pure (dictSet t "points_total" (.num f))
  | none => pure t

/-- The body of `for item in team_entry` in `_parse_team_entry`. -/
def teamItemStep (team : Dict) (item : Json) : Except Unit Dict :=
  match item with
  | .arr subs =>
      subs.foldlM (fun t sub =>
        match sub with
        | .obj skvs => applyMetaSub skvs t
        | _ => pure t) team
  | .obj ikvs => applyStandingsItem ikvs team
  | _ => pure team

/-- `_parse_team_entry`: builds the team dict; returns `none` both when the
entry raises (caught by its `except`) and when `team_key` is missing or
falsy. -/
def parseTeamEntry (teamEntry : Json) : Option Dict :=
  match (do
      let items ← liftO (pyIter teamEntry)
      items.foldlM teamItemStep ([] : Dict) : Except Unit Dict) with
  | .error _ => none
  | .ok team => if jsonTruthy (dictGetD team "team_key" .null) then some team else none

/-! ## Standings extractor (`_parse_standings`) -/

/-- The inner `for i in range(team_count)` loop collecting parsed teams. -/
def teamsLoop (tdkvs : Dict) : List Nat → Except Unit (List Dict)
  | [] => .ok []
  | i :: rest => do
      let v := dictGetD tdkvs (toString i) (.obj [])
      let te ← liftO (pyDictGetD v "team" (.arr []))
      let rest' ← teamsLoop tdkvs rest
      match parseTeamEntry te with
      | some t => .ok (t :: rest')
      | none => .ok rest'

/-- `teams_data.get("count", 0)` and the range loop, for one
standings item exposing `"teams"`. -/
def teamsFromTeamsData (td : Json) : Except Unit (List Dict) := do
  match td with
  | .obj tdkvs => do
      let cnt := dictGetD tdkvs "count" (.num 0)
      let n ← liftO (pyRangeCount cnt)
      teamsLoop tdkvs (List.range n)
  | _ => .error ()

/-- The teams contributed by one item of the standings list: dict items
exposing `"teams"` contribute their parsed teams, all others nothing. -/
def standingsItemTeams (it : Json) : Except Unit (List Dict) :=
  match it with
  | .obj ikvs =>
      (match dictGet ikvs "teams" with
       | some td => teamsFromTeamsData td
       | none => .ok [])
  | _ => .ok []

/-- `for item in standings:` — collects teams from every dict item exposing
`"teams"`. -/
def standingsItemsLoop : List Json → Except Unit (List Dict)
  | [] => .ok []
  | it :: rest => do
      let cur ← standingsItemTeams it
      let rest' ← standingsItemsLoop rest
      .ok (cur ++ rest')

/-- `if league_data and isinstance(league_data[0], dict): league_info = league_data[0]`. -/
def standingsLeagueInfo (ld : Json) : Except Unit Dict :=
  if jsonTruthy ld then do
    let x ← liftO (pyIndex ld 0)
    pure (match x with | .obj kvs => kvs | _ => ([] : Dict))
  else pure []

/-- `if len(league_data) > 1 and isinstance(league_data[1], dict)`: the
team list parsed from the second league element's `"standings"`. -/
def standingsTeams (ld : Json) : Except Unit (List Dict) := do
  let n ← liftO (pyLen ld)
  if n > 1 then do
    let x ← liftO (pyIndex ld 1)
    match x with
    | .obj kvs =>
        (match dictGetD kvs "standings" (.arr []) with
         | .arr items => standingsItemsLoop items
         | _ => .ok [])
    | _ => .ok ([] : List Dict)
  else .ok ([] : List Dict)

/-- `_parse_standings`: league metadata (first element) and the parsed team
dicts; `none` models the `except` branch returning `None`. -/
def parseStandings (data : Json) : Option (Dict × List Dict) :=
  (do
    let fc ← liftO (pyDictGetD data "fantasy_content" (.obj []))
    let ld ← liftO (pyDictGetD fc "league" (.arr []))
    let li ← standingsLeagueInfo ld
    let teams ← standingsTeams ld
    .ok (li, teams) : Except Unit (Dict × List Dict)).toOption

/-! ## Weekly-scoreboard extractor (`_parse_scoreboard`) -/

/-- One entry of a week's flat matchup list. -/
structure MatchupEntry where
  roster_id : Int
  matchup_id : Int
  points : Int
  deriving Repr, DecidableEq

/-- Lookup in the `team_key → roster_id` map (Python dict with JSON keys). -/
def lookupJ : List (Json × Int) → Json → Option Int
  | [], _ => none
  | (k, v) :: rest, key => if Json.beq k key then some v else lookupJ rest key

/-- Assignment in a Python dict with JSON keys (overwrite or append). -/
def dictSetJ : List (Json × Int) → Json → Int → List (Json × Int)
  | [], k, v => [(k, v)]
  | (k', v') :: rest, k, v =>
      if Json.beq k' k then (k', v) :: rest else (k', v') :: dictSetJ rest k v

/-- The `for item in team_entry` walk of `_parse_scoreboard`: last
`team_key` found in list-typed items, last `team_points` total found in
dict-typed items (initial value `0`). -/
def sbTeamWalk : List Json → Option Json → Int → Except Unit (Option Json × Int)
  | [], tk, pts => .ok (tk, pts)
  | item :: rest, tk, pts =>
      match item with
      | .arr subs =>
          let tk' := subs.foldl (fun acc sub =>
            match sub with
            | .obj skvs =>
                (match dictGet skvs "team_key" with
                 | some v => some v
                 | none => acc)
            | _ => acc) tk
          sbTeamWalk rest tk' pts
      | .obj ikvs =>
          (match dictGet ikvs "team_points" with
           | some tp => do
               let tot ← liftO (pyDictGetD tp "total" (.num 0))
               let f ← liftO (pyFloat tot)
               sbTeamWalk rest tk f
           | none => sbTeamWalk rest tk pts)
      | _ => sbTeamWalk rest tk pts

/-- The `for t in range(team_count)` loop of one matchup: collects the
entries (with the current matchup id) of participants whose `team_key`
resolved truthy. -/
def sbCollectTeams (timkvs : Dict) (tkMap : List (Json × Int)) (mid : Int) :
    List Nat → Except Unit (List MatchupEntry)
  | [] => .ok []
  | t :: rest => do
      let v := dictGetD timkvs (toString t) (.obj [])
      let te ← liftO (pyDictGetD v "team" (.arr []))
      let items ← liftO (pyIter te)
      let (tk?, pts) ← sbTeamWalk items none 0
      let rest' ← sbCollectTeams timkvs tkMap mid rest
      match tk? with
      | some tkv =>
          if jsonTruthy tkv then
            .ok ({ roster_id := (lookupJ tkMap tkv).getD ((t : Int) + 1),
                   matchup_id := mid, points := pts } :: rest')
          else .ok rest'
      | none => .ok rest'

/-- Processing of one matchup index: `.ok none` when the matchup is skipped
(falsy entry, falsy team collection, or a participant count other than
two), `.ok (some pair)` when it is emitted. -/
def sbOneMatchup (mdkvs : Dict) (tkMap : List (Json × Int)) (i : Nat) (mid : Int) :
    Except Unit (Option (MatchupEntry × MatchupEntry)) := do
  let v := dictGetD mdkvs (toString i) (.obj [])
  let me ← liftO (pyDictGetD v "matchup" (.obj []))
  if jsonTruthy me then do
    let v0 ← liftO (pyDictGetD me "0" (.obj []))
    let alt ← liftO (pyDictGetD me "teams" (.obj []))
    let tim ← liftO (pyDictGetD v0 "teams" alt)
    if jsonTruthy tim then
      match tim with
      | .obj timkvs => do
          let cnt := dictGetD timkvs "count" (.num 0)
          let n ← liftO (pyRangeCount cnt)
          let ts ← sbCollectTeams timkvs tkMap mid (List.range n)
          match ts with
          | [a, b] => pure (some (a, b))
          | _ => pure none
      | _ => .error ()
    else
      pure none
  else
    pure none

/-- The matchup loop: emits both entries of each kept matchup, incrementing
the matchup id per emitted matchup; an exception aborts the remaining
matchups (returning what was accumulated so far). -/
def sbMatchLoop (mdkvs : Dict) (tkMap : List (Json × Int)) :
    List Nat → Int → List MatchupEntry
  | [], _ => []
  | i :: rest, nextId =>
      match sbOneMatchup mdkvs tkMap i nextId with
      | .error _ => []
      | .ok none => sbMatchLoop mdkvs tkMap rest nextId
      | .ok (some (a, b)) => a :: b :: sbMatchLoop mdkvs tkMap rest (nextId + 1)

/-- The `for key, val in scoreboard.items()` fallback scan for a value
exposing `"matchups"`. -/
def findMatchups : Dict → Option Json
  | [] => none
  | (_, v) :: rest =>
      match v with
      | .obj vkvs =>
          (match dictGet vkvs "matchups" with
           | some m => some m
           | none => findMatchups rest)
      | _ => findMatchups rest

/-- Locating the matchup collection and its count in `_parse_scoreboard`;
`.ok none` models the early `return matchups` exits. -/
def sbSetup (data : Json) : Except Unit (Option (Dict × Nat)) := do
  let fc ← liftO (pyDictGetD data "fantasy_content" (.obj []))
  let ld ← liftO (pyDictGetD fc "league" (.arr []))
  let n ← liftO (pyLen ld)
  if n < 2 then pure none
  else do
    let x ← liftO (pyIndex ld 1)
    let sb ← liftO (pyDictGetD x "scoreboard" (.obj []))
    if jsonTruthy sb then do
      let v0 ← liftO (pyDictGetD sb "0" (.obj []))
      let altv ← liftO (pyDictGetD sb "matchups" (.obj []))
      let md0 ← liftO (pyDictGetD v0 "matchups" altv)
      let md :=
        if jsonTruthy md0 then md0
        else
          match sb with
          | .obj sbkvs => (findMatchups sbkvs).getD md0
          | _ => md0
      if jsonTruthy md then
        match md with
        | .obj mdkvs => do
            let cnt := dictGetD mdkvs "count" (.num 0)
            let n ← liftO (pyRangeCount cnt)
            pure (some (mdkvs, n))
        | _ => .error ()
      else
        pure none
    else
      pure none

/-- `_parse_scoreboard`: the flat week matchup list.  Total: every
exception is caught and yields the entries accumulated so far. -/
def parseScoreboard (data : Json) (tkMap : List (Json × Int)) : List MatchupEntry :=
  match sbSetup data with
  | .error _ => []
  | .ok none => []
  | .ok (some (mdkvs, n)) => sbMatchLoop mdkvs tkMap (List.range n) 1

/-! ## Season assembler (`extract_season_data`) -/

/-- One entry of the per-season `users` list. -/
structure UserRec where
  user_id : Json
  display_name : Json
  avatar : Json
  team_name : Json
  deriving Repr

/-- One entry of the per-season `rosters` list. -/
structure RosterRec where
  roster_id : Int
  owner_id : Json
  league_id : String
  wins : Json
  losses : Json
  ties : Json
  fpts : Int
  fpts_decimal : Int
  fpts_against : Int
  fpts_against_decimal : Int
  deriving Repr

/-- One winners-bracket placement `{r, m, t1, t2, w, l, p}`. -/
structure Placement where
  r : Int
  m : Int
  t1 : Int
  t2 : Int
  w : Int
  l : Int
  p : Int
  deriving Repr, DecidableEq

/-- The assembled season record (the fields of the claims). -/
structure SeasonData where
  leagueId : String
  totalRosters : Nat
  playoffWeekStart : Int
  users : List UserRec
  rosters : List RosterRec
  matchups : List (List MatchupEntry)
  winnersBracket : List Placement
  rosterToOwner : List (Int × Json)
  deriving Repr

/-- The sort key expression `int(t.get("rank") or 99)` before the `int`
conversion: the stored rank if truthy, else `99`. -/
def rankKeyJson (team : Dict) : Json :=
  let r := dictGetD team "rank" .null
  if jsonTruthy r then r else .num 99

/-- The full sort key `int(t.get("rank") or 99)`; `none` models an
exception raised by `int()` (aborting the season). -/
def sortKeyOf (team : Dict) : Option Int :=
  pyInt (rankKeyJson team)

/-- Computes every team's sort key (as `sorted` does before comparing). -/
def attachKeys : List Dict → Option (List (Int × Dict))
  | [] => some []
  | t :: ts => do
      let k ← sortKeyOf t
      let rest ← attachKeys ts
      some ((k, t) :: rest)

/-- Tags each keyed team with its 0-based discovery index. -/
def tagIdx : Nat → List (Int × Dict) → List ((Int × Nat) × Dict)
  | _, [] => []
  | i, (k, t) :: rest => ((k, i), t) :: tagIdx (i + 1) rest

/-- Lexicographic order on (sort key, discovery index).  A stable sort by
key — which is what Python's `sorted` is specified to be — produces exactly
the unique list sorted by this order. -/
def lexLE : ((Int × Nat) × Dict) → ((Int × Nat) × Dict) → Prop :=
  fun a b => a.1.1 < b.1.1 ∨ (a.1.1 = b.1.1 ∧ a.1.2 ≤ b.1.2)

instance : DecidableRel lexLE := fun a b => by unfold lexLE; exact inferInstance

/-- `sorted(teams, key=lambda t: int(t.get("rank") or 99))`: Python's
stable sort, realised as the sort by (key, discovery index). -/
def sortTeamsByRank (ts : List Dict) : Option (List Dict) :=
  (attachKeys ts).map (fun kts => (List.insertionSort lexLE (tagIdx 0 kts)).map (·.2))

/-- `team.get("manager_guid", f"yahoo_{team.get('team_key', idx)}")`. -/
def managerIdOf (team : Dict) (idx : Nat) : Json :=
  match dictGet team "manager_guid" with
  | some g => g
  | none => .str ("yahoo_" ++ pyStr (dictGetD team "team_key" (.num idx)))

/-- The user record appended for the team at (0-based) sorted position
`idx`. -/
def mkUser (idx : Nat) (team : Dict) : UserRec :=
  { user_id := managerIdOf team idx
    display_name := dictGetD team "manager_name" (.str ("Manager " ++ toString (idx + 1)))
    avatar := dictGetD team "team_logo" .null
    team_name := dictGetD team "team_name" (.str "") }

/-- The `users.append(...)` loop over the sorted teams. -/
def buildUsers : Nat → List Dict → List UserRec
  | _, [] => []
  | idx, t :: ts => mkUser idx t :: buildUsers (idx + 1) ts

/-- The roster record appended for the team at sorted position `idx`;
`none` models an exception in the numeric conversions. -/
def mkRoster (leagueKey : String) (idx : Nat) (team : Dict) : Option RosterRec := do
  let pf ← pyFloat (dictGetD team "points_for" (.num 0))
  let pa ← pyFloat (dictGetD team "points_against" (.num 0))
  some { roster_id := (idx : Int) + 1
         owner_id := managerIdOf team idx
         league_id := leagueKey
         wins := dictGetD team "wins" (.num 0)
         losses := dictGetD team "losses" (.num 0)
         ties := dictGetD team "ties" (.num 0)
         fpts := pf
         fpts_decimal := (pf % 1) * 100
         fpts_against := pa
         fpts_against_decimal := (pa % 1) * 100 }

/-- The `rosters.append(...)` loop over the sorted teams. -/
def buildRosters (lk : String) : Nat → List Dict → Option (List RosterRec)
  | _, [] => some []
  | idx, t :: ts => do
      let r ← mkRoster lk idx t
      let rest ← buildRosters lk (idx + 1) ts
      some (r :: rest)

/-- `roster_to_owner[team_id] = manager_id` over the sorted teams. -/
def buildRosterToOwner : Nat → List Dict → List (Int × Json)
  | _, [] => []
  | idx, t :: ts => ((idx : Int) + 1, managerIdOf t idx) :: buildRosterToOwner (idx + 1) ts

/-- `team_key_to_roster_id[team.get("team_key", "")] = idx + 1` over the
sorted teams; `none` models the `TypeError` raised by an unhashable key. -/
def buildTeamKeyMap : Nat → List Dict → List (Json × Int) → Option (List (Json × Int))
  | _, [], acc => some acc
  | idx, t :: ts, acc =>
      let k := dictGetD t "team_key" (.str "")
      if jsonHashable k then buildTeamKeyMap (idx + 1) ts (dictSetJ acc k ((idx : Int) + 1))
      else none

/-- The weekly fetch loop: one list per week `1..regular_season_weeks`;
a week whose fetch raises (`fetchWeek _ = none`) degrades to `[]`. -/
def buildWeeks (fetchWeek : Int → Option Json) (tkMap : List (Json × Int))
    (regular : Int) : List (List MatchupEntry) :=
  (List.range regular.toNat).map (fun (i : Nat) =>
    match fetchWeek ((i : Int) + 1) with
    | none => []
    | some sb => parseScoreboard sb tkMap)

/-! ## Rank-derived bracket (`_build_bracket_from_rankings`) -/

/-- `k in roster_to_owner`. -/
def containsKey : List (Int × Json) → Int → Bool
  | [], _ => false
  | (k, _) :: rest, key => k == key || containsKey rest key

/-- The championship placement emitted by `_build_bracket_from_rankings`. -/
def champPlacement : Placement := ⟨2, 1, 1, 2, 1, 2, 1⟩

/-- The third-place placement emitted by `_build_bracket_from_rankings`. -/
def thirdPlacement : Placement := ⟨2, 2, 3, 4, 3, 4, 3⟩

/-- `_build_bracket_from_rankings`. -/
def buildBracketFromRankings (rosterToOwner : List (Int × Json)) : List Placement :=
  (if containsKey rosterToOwner 1 && containsKey rosterToOwner 2
   then [champPlacement] else []) ++
  (if containsKey rosterToOwner 3 && containsKey rosterToOwner 4
   then [thirdPlacement] else [])

/-- `extract_season_data`, given the already-deserialised responses:
settings, standings and a per-week scoreboard fetch (`none` = the HTTP
call raised).  Returns `none` when the season is aborted.  (The Python
guard `if not parsed` fires exactly when `_parse_standings` returned
`None`, since the parsed dict itself is always truthy.) -/
def extractSeasonData (leagueKey : String) (settingsResp standingsResp : Json)
    (fetchWeek : Int → Option Json) : Option SeasonData :=
  match effectiveLeagueSettings settingsResp with
  | none => none
  | some (_numTeams, playoffStart, _endWeek) =>
    match parseStandings standingsResp with
    | none => none
    | some (_leagueInfo, teams) =>
      match sortTeamsByRank teams with
      | none => none
      | some ts =>
        match buildRosters leagueKey 0 ts with
        | none => none
        | some rosters =>
          match buildTeamKeyMap 0 ts [] with
          | none => none
          | some tkMap =>
            let r2o := buildRosterToOwner 0 ts
            some { leagueId := leagueKey
                   totalRosters := teams.length
                   playoffWeekStart := playoffStart
                   users := buildUsers 0 ts
                   rosters := rosters
                   matchups := buildWeeks fetchWeek tkMap (playoffStart - 1)
                   winnersBracket := buildBracketFromRankings r2o
                   rosterToOwner := r2o }

/-! ## Matchup-derived bracket (`_determine_placements`) -/

/-- Python `max(pair, key=lambda x: x["points"])`: first maximal element. -/
def pyMaxByPoints : List MatchupEntry → MatchupEntry
  | [] => ⟨0, 0, 0⟩
  | x :: xs => xs.foldl (fun acc y => if y.points > acc.points then y else acc) x

/-- Python `min(pair, key=lambda x: x["points"])`: first minimal element. -/
def pyMinByPoints : List MatchupEntry → MatchupEntry
  | [] => ⟨0, 0, 0⟩
  | x :: xs => xs.foldl (fun acc y => if y.points < acc.points then y else acc) x

/-- Appends an entry to its matchup-id group (insertion-ordered, as a
Python dict of lists). -/
def addToGroup : List (Int × List MatchupEntry) → Int → MatchupEntry →
    List (Int × List MatchupEntry)
  | [], mid, e => [(mid, [e])]
  | (k, es) :: rest, mid, e =>
      if k = mid then (k, es ++ [e]) :: rest else (k, es) :: addToGroup rest mid e

/-- Groups a week's entries by `matchup_id` in first-seen order. -/
def groupByMid (l : List MatchupEntry) : List (Int × List MatchupEntry) :=
  l.foldl (fun acc m => addToGroup acc m.matchup_id m) []

/-- Semifinal winner/loser sets: for each complete (two-entry) semifinal
matchup, the higher scorer joins the winners, the other the losers. -/
def semiSets (semis : List MatchupEntry) : Finset Int × Finset Int :=
  (groupByMid semis).foldl (fun ws g =>
    if g.2.length = 2 then
      (insert (pyMaxByPoints g.2).roster_id ws.1, insert (pyMinByPoints g.2).roster_id ws.2)
    else ws) (∅, ∅)

/-- The week-selection loop of `_determine_placements`: the last matchup
list recorded for week `w` (an `if/elif` on the week number). -/
def findWeek (pm : List (Int × List MatchupEntry)) (w : Int) :
    Option (List MatchupEntry) :=
  pm.foldl (fun acc wm => if wm.1 = w then some wm.2 else acc) none

/-- `by_matchup[mid]`. -/
def lookupGroup : List (Int × List MatchupEntry) → Int → Option (List MatchupEntry)
  | [], _ => none
  | (k, es) :: rest, key => if k = key then some es else lookupGroup rest key

/-- `{p["roster_id"] for p in pair}`. -/
def rosterIdSet (pair : List MatchupEntry) : Finset Int :=
  pair.foldl (fun s p => insert p.roster_id s) ∅

/-- The semifinal-driven scan classifying final-week matchups into
championship and third-place pairings (last matching pairing wins). -/
def champThirdScan (semiW semiL : Finset Int)
    (groups : List (Int × List MatchupEntry)) :
    Option (List MatchupEntry) × Option (List MatchupEntry) :=
  groups.foldl (fun ct g =>
    if g.2.length ≠ 2 then ct
    else if rosterIdSet g.2 ⊆ semiW then (some g.2, ct.2)
    else if rosterIdSet g.2 ⊆ semiL then (ct.1, some g.2)
    else ct) (none, none)

/-- The placement `{r:2, m, t1, t2, w, l, p}` emitted for a resolved
pairing: higher scorer is winner. -/
def placementOf (pair : List MatchupEntry) (m p : Int) : Placement :=
  ⟨2, m, (pyMaxByPoints pair).roster_id, (pyMinByPoints pair).roster_id,
   (pyMaxByPoints pair).roster_id, (pyMinByPoints pair).roster_id, p⟩

/-- `if champ_matchup and len(champ_matchup) == 2: bracket.append(...)`. -/
def emitPlacement (pair? : Option (List MatchupEntry)) (m p : Int) : List Placement :=
  match pair? with
  | some pair => if pair.length = 2 then [placementOf pair m p] else []
  | none => []

/-- `_determine_placements`. -/
def determinePlacements (pm : List (Int × List MatchupEntry))
    (_playoffStart endWeek : Int) (_tkMap : List (Json × Int)) : List Placement :=
  if pm.isEmpty then []
  else
    match findWeek pm endWeek with
    | none => []
    | some fw =>
      if fw.isEmpty then []
      else
        let sw :=
          match findWeek pm (endWeek - 1) with
          | none => ((∅ : Finset Int), (∅ : Finset Int))
          | some sm => if sm.isEmpty then (∅, ∅) else semiSets sm
        let groups := groupByMid fw
        let ct :=
          if sw.1.Nonempty then champThirdScan sw.1 sw.2 groups
          else
            let mids := List.insertionSort (· ≤ ·) (groups.map (·.1))
            (match mids.head? with
             | some m0 => lookupGroup groups m0
             | none => none,
             match mids.get? 1 with
             | some m1 => lookupGroup groups m1
             | none => none)
        emitPlacement ct.1 1 1 ++ emitPlacement ct.2 2 3

/-! ## Claim C2: the rank-derived bracket -/

/-- C2: `_build_bracket_from_rankings` is a deterministic function of the
key set of `roster_to_owner`: it emits the championship placement
`{r:2,m:1,t1:1,t2:2,w:1,l:2,p:1}` iff rosters 1 and 2 are present, the
third-place placement `{r:2,m:2,t1:3,t2:4,w:3,l:4,p:3}` iff rosters 3 and
4 are present; with rosters 1–4 present it yields exactly the two
placements with `p` values `[1, 3]`, and with rosters 1 and 2 present but
roster 3 absent it yields only the championship placement. -/
theorem bracket_from_rankings_spec (m m' : List (Int × Json))
    (hsame : ∀ k, containsKey m k = containsKey m' k) :
    buildBracketFromRankings m = buildBracketFromRankings m'
    ∧ (champPlacement ∈ buildBracketFromRankings m ↔
        (containsKey m 1 && containsKey m 2) = true)
    ∧ (thirdPlacement ∈ buildBracketFromRankings m ↔
        (containsKey m 3 && containsKey m 4) = true)
    ∧ ((containsKey m 1 && containsKey m 2) = true →
        (containsKey m 3 && containsKey m 4) = true →
        buildBracketFromRankings m = [champPlacement, thirdPlacement]
        ∧ (buildBracketFromRankings m).map (·.p) = [1, 3])
    ∧ ((containsKey m 1 && containsKey m 2) = true → containsKey m 3 = false →
        buildBracketFromRankings m = [champPlacement]) := by
  refine ⟨?_, ?_, ?_, ?_, ?_⟩
  · simp only [buildBracketFromRankings, hsame 1, hsame 2, hsame 3, hsame 4]
  · by_cases h12 : (containsKey m 1 && containsKey m 2) = true <;>
      by_cases h34 : (containsKey m 3 && containsKey m 4) = true <;>
      simp [buildBracketFromRankings, h12, h34, champPlacement, thirdPlacement]
  · by_cases h12 : (containsKey m 1 && containsKey m 2) = true <;>
      by_cases h34 : (containsKey m 3 && containsKey m 4) = true <;>
      simp [buildBracketFromRankings, h12, h34, champPlacement, thirdPlacement]
  · intro h12 h34
    simp [buildBracketFromRankings, h12, h34, champPlacement, thirdPlacement]
  · intro h12 h3
    simp [buildBracketFromRankings, h12, h3]

/-- Witness for C2 at a concrete owner map with exactly rosters 1 and 2. -/
theorem bracket_from_rankings_spec_witness :
    buildBracketFromRankings [(1, Json.null), (2, Json.null)] = [champPlacement] :=
  (bracket_from_rankings_spec [(1, Json.null), (2, Json.null)]
      [(1, Json.null), (2, Json.null)] (fun _ => rfl)).2.2.2.2 (by decide) (by decide)

/-! ## Claim C4: the weekly-scoreboard extractor -/

/-- Inversion of `Except` bind on a success. -/
theorem except_bind_ok {α β : Type} {x : Except Unit α} {f : α → Except Unit β} {b : β}
    (h : (x >>= f) = .ok b) : ∃ a, x = .ok a ∧ f a = .ok b := by
  cases x with
  | error e => simp only [bind, Except.bind] at h; cases h
  | ok a => exact ⟨a, rfl, h⟩

/-- A successful `liftO` comes from a `some`. -/
theorem liftO_ok {α : Type} {o : Option α} {a : α} (h : liftO o = .ok a) : o = some a := by
  cases o with
  | none => simp only [liftO] at h; cases h
  | some x => simp only [liftO] at h; cases h; rfl

/-- Every entry collected for one matchup carries that matchup's id. -/
theorem sbCollectTeams_mid (timkvs : Dict) (tkMap : List (Json × Int)) (mid : Int) :
    ∀ (ts : List Nat) (l : List MatchupEntry),
      sbCollectTeams timkvs tkMap mid ts = .ok l → ∀ e ∈ l, e.matchup_id = mid := by
  intro ts
  induction ts with
  | nil =>
      intro l h e he
      simp only [sbCollectTeams] at h
      cases h
      simp at he
  | cons t rest ih =>
      intro l h e he
      simp only [sbCollectTeams] at h
      obtain ⟨te, hte, h⟩ := except_bind_ok h
      obtain ⟨items, hitems, h⟩ := except_bind_ok h
      obtain ⟨⟨tk?, pts⟩, hwalk, h⟩ := except_bind_ok h
      obtain ⟨rest', hrest', h⟩ := except_bind_ok h
      cases tk? with
      | none =>
          cases h
          exact ih _ hrest' e he
      | some tkv =>
          simp only at h
          split at h
          · cases h
            rcases List.mem_cons.mp he with h1 | h2
            · rw [h1]
            · exact ih _ hrest' e h2
          · cases h
            exact ih _ hrest' e he

/-- Both entries of an emitted matchup carry the current matchup id. -/
theorem sbOneMatchup_mid (mdkvs : Dict) (tkMap : List (Json × Int)) (i : Nat) (mid : Int)
    (a b : MatchupEntry) (h : sbOneMatchup mdkvs tkMap i mid = .ok (some (a, b))) :
    a.matchup_id = mid ∧ b.matchup_id = mid := by
  simp only [sbOneMatchup] at h
  obtain ⟨me, hme, h⟩ := except_bind_ok h
  split at h
  · obtain ⟨v0, hv0, h⟩ := except_bind_ok h
    obtain ⟨alt, halt, h⟩ := except_bind_ok h
    obtain ⟨tim, htim, h⟩ := except_bind_ok h
    split at h
    · split at h
      · obtain ⟨n, hn, h⟩ := except_bind_ok h
        obtain ⟨ts, hts, h⟩ := except_bind_ok h
        split at h
        · rename_i a' b'
          simp only [pure, Except.pure, Except.ok.injEq, Option.some.injEq,
            Prod.mk.injEq] at h
          obtain ⟨rfl, rfl⟩ := h
          have hmem := sbCollectTeams_mid _ tkMap mid _ _ hts
          exact ⟨hmem a' (by simp), hmem b' (by simp)⟩
        · simp [pure, Except.pure] at h
      · cases h
    · simp [pure, Except.pure] at h
  · simp [pure, Except.pure] at h

/-- The matchup loop always emits an even number of entries. -/
theorem sbMatchLoop_even (mdkvs : Dict) (tkMap : List (Json × Int)) :
    ∀ (is : List Nat) (n : Int), (sbMatchLoop mdkvs tkMap is n).length % 2 = 0 := by
  intro is
  induction is with
  | nil => intro n; simp [sbMatchLoop]
  | cons i rest ih =>
      intro n
      simp only [sbMatchLoop]
      split
      · simp
      · exact ih n
      · have := ih (n + 1)
        simp only [List.length_cons]
        omega

/-- Starting the loop at id `n`, the `k`-th emitted entry has matchup id
`n + k / 2`. -/
theorem sbMatchLoop_mid (mdkvs : Dict) (tkMap : List (Json × Int)) :
    ∀ (is : List Nat) (n : Int) (k : Nat),
      k < (sbMatchLoop mdkvs tkMap is n).length →
      ((sbMatchLoop mdkvs tkMap is n).getD k ⟨0, 0, 0⟩).matchup_id = n + (k / 2 : Nat) := by
  intro is
  induction is with
  | nil => intro n k hk; simp [sbMatchLoop] at hk
  | cons i rest ih =>
      intro n k hk
      simp only [sbMatchLoop] at hk ⊢
      split at hk
      · simp at hk
      · exact ih n k hk
      · rename_i a b hsb
        obtain ⟨ha, hb⟩ := sbOneMatchup_mid mdkvs tkMap i n a b hsb
        match k with
        | 0 => simpa using ha
        | 1 => simpa using hb
        | (k' + 2) =>
            simp only [List.getD_cons_succ]
            have hk' : k' < (sbMatchLoop mdkvs tkMap rest (n + 1)).length := by
              simp only [List.length_cons] at hk; omega
            have := ih (n + 1) k' hk'
            rw [this]
            have hdiv : (k' + 2) / 2 = k' / 2 + 1 := by omega
            rw [hdiv]
            push_cast
            ring

/-- A scoreboard team entry with the given key and points total. -/
def sbTeamJson (k : String) (pts : Int) : Json :=
  .obj [("team", .arr [ .arr [ .obj [("team_key", .str k)] ],
        .obj [("team_points", .obj [("total", .num pts)])] ])]

/-- A scoreboard response whose single matchup has three team entries. -/
def threeTeamScoreboard : Json :=
  .obj [("fantasy_content", .obj [("league", .arr [ .obj [],
    .obj [("scoreboard", .obj [("0", .obj [("matchups", .obj [
      ("count", .num 1),
      ("0", .obj [("matchup", .obj [("0", .obj [("teams", .obj [
         ("count", .num 3), ("0", sbTeamJson "A" 50), ("1", sbTeamJson "B" 40),
         ("2", sbTeamJson "C" 30)])])])])])])])]])])]

/-- A scoreboard response with two well-formed two-team matchups. -/
def twoMatchupScoreboard : Json :=
  .obj [("fantasy_content", .obj [("league", .arr [ .obj [],
    .obj [("scoreboard", .obj [("0", .obj [("matchups", .obj [
      ("count", .num 2),
      ("0", .obj [("matchup", .obj [("0", .obj [("teams", .obj [
         ("count", .num 2), ("0", sbTeamJson "A" 50), ("1", sbTeamJson "B" 40)])])])]),
      ("1", .obj [("matchup", .obj [("0", .obj [("teams", .obj [
         ("count", .num 2), ("0", sbTeamJson "C" 30), ("1", sbTeamJson "D" 20)])])])])])])])]])])]

/-- A `team_key → roster_id` map for the sample scoreboards. -/
def sampleTeamKeyMap : List (Json × Int) :=
  [(.str "A", 1), (.str "B", 2), (.str "C", 3), (.str "D", 4)]

/-- C4: `_parse_scoreboard` always returns a flat list of even length whose
`k`-th entry has `matchup_id = k / 2 + 1` (so ids are 1-based, increment
per emitted matchup, and each entry has exactly one partner — the other
entry of its pair — with the same id in the same week); a matchup whose
resolved participant count differs from two (here: three team entries) is
silently skipped with nothing emitted, so the week list may be empty. -/
theorem parse_scoreboard_pairing (data : Json) (tkMap : List (Json × Int)) :
    (parseScoreboard data tkMap).length % 2 = 0
    ∧ (∀ k, k < (parseScoreboard data tkMap).length →
        ((parseScoreboard data tkMap).getD k ⟨0, 0, 0⟩).matchup_id = ((k / 2 : Nat) : Int) + 1)
    ∧ (∀ k j, k < (parseScoreboard data tkMap).length →
        j < (parseScoreboard data tkMap).length →
        ((parseScoreboard data tkMap).getD k ⟨0, 0, 0⟩).matchup_id =
          ((parseScoreboard data tkMap).getD j ⟨0, 0, 0⟩).matchup_id →
        k / 2 = j / 2)
    ∧ parseScoreboard threeTeamScoreboard sampleTeamKeyMap = [] := by
  have hmain : ∀ k, k < (parseScoreboard data tkMap).length →
      ((parseScoreboard data tkMap).getD k ⟨0, 0, 0⟩).matchup_id = ((k / 2 : Nat) : Int) + 1 := by
    intro k hk
    unfold parseScoreboard at hk ⊢
    split at hk
    · simp at hk
    · simp at hk
    · rename_i mdkvs n heq
      have := sbMatchLoop_mid mdkvs tkMap (List.range n) 1 k hk
      rw [this]; ring
  refine ⟨?_, hmain, ?_, ?_⟩
  · unfold parseScoreboard
    split
    · simp
    · simp
    · exact sbMatchLoop_even _ _ _ _
  · intro k j hk hj hmid
    rw [hmain k hk, hmain j hj] at hmid
    omega
  · rfl

/-- Witness for C4 at a concrete two-matchup scoreboard. -/
theorem parse_scoreboard_pairing_witness :
    2 < (parseScoreboard twoMatchupScoreboard sampleTeamKeyMap).length
    ∧ ((parseScoreboard twoMatchupScoreboard sampleTeamKeyMap).getD 2
        ⟨0, 0, 0⟩).matchup_id = ((2 / 2 : Nat) : Int) + 1 :=
  ⟨by decide, (parse_scoreboard_pairing twoMatchupScoreboard sampleTeamKeyMap).2.1 2 (by decide)⟩

/-! ## Inversion of a successful season extraction -/

/-- Unpacks a successful `extractSeasonData` run into its pipeline stages. -/
theorem extractSeasonData_inv {lk : String} {sjs stjs : Json}
    {fetch : Int → Option Json} {sd : SeasonData}
    (h : extractSeasonData lk sjs stjs fetch = some sd) :
    ∃ nt ps ew li teams ts rosters tkMap,
      effectiveLeagueSettings sjs = some (nt, ps, ew)
      ∧ parseStandings stjs = some (li, teams)
      ∧ sortTeamsByRank teams = some ts
      ∧ buildRosters lk 0 ts = some rosters
      ∧ buildTeamKeyMap 0 ts [] = some tkMap
      ∧ sd = { leagueId := lk, totalRosters := teams.length, playoffWeekStart := ps,
               users := buildUsers 0 ts, rosters := rosters,
               matchups := buildWeeks fetch tkMap (ps - 1),
               winnersBracket := buildBracketFromRankings (buildRosterToOwner 0 ts),
               rosterToOwner := buildRosterToOwner 0 ts } := by
  unfold extractSeasonData at h
  split at h
  · cases h
  · rename_i eff nt ps ew heff
    split at h
    · cases h
    · rename_i pr li teams hpr
      split at h
      · cases h
      · rename_i ts hts
        split at h
        · cases h
        · rename_i rosters hrs
          split at h
          · cases h
          · rename_i tkMap htk
            cases h
            exact ⟨nt, ps, ew, li, teams, ts, rosters, tkMap,
              heff, hpr, hts, hrs, htk, rfl⟩

/-- The weekly loop produces one list per week `1..regular`. -/
theorem buildWeeks_length (fetch : Int → Option Json) (tkMap : List (Json × Int))
    (regular : Int) : (buildWeeks fetch tkMap regular).length = regular.toNat := by
  simp only [buildWeeks, List.length_map, List.length_range]

/-! ## Claim C6: settings defaults -/

/-- C6: when the settings response yields none of the recognised keys, or
settings parsing raises (the `except` branch of `_parse_league_settings`),
the effective settings used by `extract_season_data` are
`num_teams = 10`, `playoff_start_week = 14`, `end_week = 16`; hence any
season assembled from such a settings response has
`regular_season_weeks = 13` weeks of matchups, and the settings stage
never aborts the season (the effective settings always exist). -/
theorem settings_failure_defaults (j : Json)
    (h : parseLeagueSettingsE j = .error ()
         ∨ (dictGet (parseLeagueSettings j) "num_teams" = none
            ∧ dictGet (parseLeagueSettings j) "playoff_start_week" = none
            ∧ dictGet (parseLeagueSettings j) "end_week" = none)) :
    effectiveLeagueSettings j = some (10, 14, 16)
    ∧ ((14 : Int) - 1 = 13)
    ∧ (∀ (lk : String) (stjs : Json) (fetch : Int → Option Json) (sd : SeasonData),
        extractSeasonData lk j stjs fetch = some sd → sd.matchups.length = 13) := by
  have heff : effectiveLeagueSettings j = some (10, 14, 16) := by
    rcases h with herr | ⟨h1, h2, h3⟩
    · simp [effectiveLeagueSettings, parseLeagueSettings, herr, defaultSettingsDict,
        dictGetD, dictGet, pyInt]
    · simp [effectiveLeagueSettings, dictGetD, h1, h2, h3, pyInt]
  refine ⟨heff, rfl, ?_⟩
  intro lk stjs fetch sd hx
  obtain ⟨nt, ps, ew, li, teams, ts, rosters, tkMap, heff', hpr, hts, hrs, htk, hsd⟩ :=
    extractSeasonData_inv hx
  rw [heff] at heff'
  cases heff'
  rw [hsd]
  simp [buildWeeks_length]

/-- A settings response whose parse raises: a non-numeric `num_teams` in
the league metadata makes `int()` raise inside `_parse_league_settings`. -/
def badSettingsResponse : Json :=
  .obj [("fantasy_content", .obj [("league", .arr [ .obj [("num_teams", .str "abc")] ])])]

/-- Witness for C6 at `badSettingsResponse`. -/
theorem settings_failure_defaults_witness :
    parseLeagueSettingsE badSettingsResponse = .error ()
    ∧ effectiveLeagueSettings badSettingsResponse = some (10, 14, 16) :=
  ⟨rfl, (settings_failure_defaults badSettingsResponse (Or.inl rfl)).1⟩

/-- Python `max` of a two-element list keeps the first on ties. -/
theorem pyMaxByPoints_pair (a b : MatchupEntry) :
    pyMaxByPoints [a, b] = if b.points > a.points then b else a := rfl

/-- Python `min` of a two-element list keeps the first on ties. -/
theorem pyMinByPoints_pair (a b : MatchupEntry) :
    pyMinByPoints [a, b] = if b.points < a.points then b else a := rfl

/-- C7: with semifinal data present, each complete semifinal matchup sends
its higher scorer to the winner set and the other to the loser set
(conjuncts 1–2: the sets are `{r1, r3}` and `{r2, r4}`); a final-week
matchup whose participants are all semifinal winners becomes the
championship placement (placement 1) with the higher scorer as winner, and
one whose participants are all semifinal losers becomes the third-place
placement (placement 3).  In particular, for the claim's scenario —
semifinals `{(R1,p1),(R2,p2)} id 1`, `{(R3,p3),(R4,p4)} id 2` and final
week `{(R1,q1),(R3,q2)} id 1` — the output is exactly the championship
placement with winner R1 and loser R3, and no third-place entry
(conjunct 3); adding a final-week matchup of the two losers also yields
the third-place placement (conjunct 4). -/
theorem determine_placements_semifinal_resolution
    (ew ps r1 r2 r3 r4 p1 p2 p3 p4 q1 q2 s1 s2 : Int) (tk : List (Json × Int))
    (hp : p1 > p2) (hp' : p3 > p4) (hq : q1 > q2) (hs : s1 > s2)
    (h21 : r2 ≠ r1) (h23 : r2 ≠ r3) :
    (semiSets [⟨r1, 1, p1⟩, ⟨r2, 1, p2⟩, ⟨r3, 2, p3⟩, ⟨r4, 2, p4⟩]).1 = {r1, r3}
    ∧ (semiSets [⟨r1, 1, p1⟩, ⟨r2, 1, p2⟩, ⟨r3, 2, p3⟩, ⟨r4, 2, p4⟩]).2 = {r2, r4}
    ∧ determinePlacements
        [(ew - 1, [⟨r1, 1, p1⟩, ⟨r2, 1, p2⟩, ⟨r3, 2, p3⟩, ⟨r4, 2, p4⟩]),
         (ew, [⟨r1, 1, q1⟩, ⟨r3, 1, q2⟩])] ps ew tk
      = [⟨2, 1, r1, r3, r1, r3, 1⟩]
    ∧ determinePlacements
        [(ew - 1, [⟨r1, 1, p1⟩, ⟨r2, 1, p2⟩, ⟨r3, 2, p3⟩, ⟨r4, 2, p4⟩]),
         (ew, [⟨r1, 1, q1⟩, ⟨r3, 1, q2⟩, ⟨r2, 2, s1⟩, ⟨r4, 2, s2⟩])] ps ew tk
      = [⟨2, 1, r1, r3, r1, r3, 1⟩, ⟨2, 2, r2, r4, r2, r4, 3⟩] := by
  have hg : groupByMid [⟨r1, 1, p1⟩, ⟨r2, 1, p2⟩, ⟨r3, 2, p3⟩, ⟨r4, 2, p4⟩]
      = [(1, [⟨r1, 1, p1⟩, ⟨r2, 1, p2⟩]), (2, [⟨r3, 2, p3⟩, ⟨r4, 2, p4⟩])] := rfl
  have c1 : (p1 < p2) = False := eq_false (lt_asymm hp)
  have c2 : (p2 < p1) = True := eq_true hp
  have c3 : (p3 < p4) = False := eq_false (lt_asymm hp')
  have c4 : (p4 < p3) = True := eq_true hp'
  have c5 : (q1 < q2) = False := eq_false (lt_asymm hq)
  have c6 : (q2 < q1) = True := eq_true hq
  have c7 : (s1 < s2) = False := eq_false (lt_asymm hs)
  have c8 : (s2 < s1) = True := eq_true hs
  have hraw : semiSets [⟨r1, 1, p1⟩, ⟨r2, 1, p2⟩, ⟨r3, 2, p3⟩, ⟨r4, 2, p4⟩]
      = (insert r3 (insert r1 ∅), insert r4 (insert r2 ∅)) := by
    simp only [semiSets, hg, List.foldl, List.singleton_append, List.length_cons,
      List.length_nil, pyMaxByPoints_pair, pyMinByPoints_pair, gt_iff_lt,
      c1, c2, c3, c4, if_true, if_false, if_pos rfl]
  have cs1 : (insert r3 (insert r1 (∅ : Finset Int)) ⊆ insert r3 (insert r1 ∅)) = True :=
    eq_true (Finset.Subset.refl _)
  have cs2 : (insert r4 (insert r2 (∅ : Finset Int)) ⊆ insert r3 (insert r1 ∅)) = False := by
    refine eq_false (fun hsub => ?_)
    have h2m : r2 ∈ insert r4 (insert r2 (∅ : Finset Int)) := by simp
    have := hsub h2m
    simp only [Finset.mem_insert, Finset.not_mem_empty, or_false] at this
    rcases this with h | h
    · exact h23 h
    · exact h21 h
  have cs3 : (insert r4 (insert r2 (∅ : Finset Int)) ⊆ insert r4 (insert r2 ∅)) = True :=
    eq_true (Finset.Subset.refl _)
  refine ⟨?_, ?_, ?_, ?_⟩
  · rw [hraw]
    simp only [Finset.insert_empty]
    exact Finset.pair_comm r3 r1
  · rw [hraw]
    simp only [Finset.insert_empty]
    exact Finset.pair_comm r4 r2
  · have h1 : findWeek [(ew - 1, [⟨r1, 1, p1⟩, ⟨r2, 1, p2⟩, ⟨r3, 2, p3⟩, ⟨r4, 2, p4⟩]),
         (ew, [⟨r1, 1, q1⟩, ⟨r3, 1, q2⟩])] ew = some [⟨r1, 1, q1⟩, ⟨r3, 1, q2⟩] := by
      simp only [findWeek, List.foldl, eq_false (by omega : ¬(ew - 1 = ew)),
        eq_self_iff_true, if_true, if_false]
    have h2 : findWeek [(ew - 1, [⟨r1, 1, p1⟩, ⟨r2, 1, p2⟩, ⟨r3, 2, p3⟩, ⟨r4, 2, p4⟩]),
         (ew, [⟨r1, 1, q1⟩, ⟨r3, 1, q2⟩])] (ew - 1)
         = some [⟨r1, 1, p1⟩, ⟨r2, 1, p2⟩, ⟨r3, 2, p3⟩, ⟨r4, 2, p4⟩] := by
      simp only [findWeek, List.foldl, eq_false (by omega : ¬(ew = ew - 1)),
        eq_self_iff_true, if_true, if_false]
    rw [determinePlacements, h1, h2]
    simp only [List.isEmpty_cons, Bool.false_eq_true, if_false, hraw]
    rw [if_pos (Finset.insert_nonempty _ _)]
    have hgf : groupByMid [⟨r1, 1, q1⟩, ⟨r3, 1, q2⟩]
        = [(1, [⟨r1, 1, q1⟩, ⟨r3, 1, q2⟩])] := rfl
    rw [hgf]
    simp only [champThirdScan, List.foldl, List.singleton_append, List.length_cons,
      List.length_nil, rosterIdSet, ne_eq, cs1, not_true, if_true, if_false]
    simp only [emitPlacement, placementOf, List.length_cons, List.length_nil,
      pyMaxByPoints_pair, pyMinByPoints_pair, c5, c6, if_true, if_false]
    simp
  · have h1 : findWeek [(ew - 1, [⟨r1, 1, p1⟩, ⟨r2, 1, p2⟩, ⟨r3, 2, p3⟩, ⟨r4, 2, p4⟩]),
         (ew, [⟨r1, 1, q1⟩, ⟨r3, 1, q2⟩, ⟨r2, 2, s1⟩, ⟨r4, 2, s2⟩])] ew
         = some [⟨r1, 1, q1⟩, ⟨r3, 1, q2⟩, ⟨r2, 2, s1⟩, ⟨r4, 2, s2⟩] := by
      simp only [findWeek, List.foldl, eq_false (by omega : ¬(ew - 1 = ew)),
        eq_self_iff_true, if_true, if_false]
    have h2 : findWeek [(ew - 1, [⟨r1, 1, p1⟩, ⟨r2, 1, p2⟩, ⟨r3, 2, p3⟩, ⟨r4, 2, p4⟩]),
         (ew, [⟨r1, 1, q1⟩, ⟨r3, 1, q2⟩, ⟨r2, 2, s1⟩, ⟨r4, 2, s2⟩])] (ew - 1)
         = some [⟨r1, 1, p1⟩, ⟨r2, 1, p2⟩, ⟨r3, 2, p3⟩, ⟨r4, 2, p4⟩] := by
      simp only [findWeek, List.foldl, eq_false (by omega : ¬(ew = ew - 1)),
        eq_self_iff_true, if_true, if_false]
    rw [determinePlacements, h1, h2]
    simp only [List.isEmpty_cons, Bool.false_eq_true, if_false, hraw]
    rw [if_pos (Finset.insert_nonempty _ _)]
    have hgf : groupByMid [⟨r1, 1, q1⟩, ⟨r3, 1, q2⟩, ⟨r2, 2, s1⟩, ⟨r4, 2, s2⟩]
        = [(1, [⟨r1, 1, q1⟩, ⟨r3, 1, q2⟩]), (2, [⟨r2, 2, s1⟩, ⟨r4, 2, s2⟩])] := rfl
    rw [hgf]
    simp only [champThirdScan, List.foldl, List.singleton_append, List.length_cons,
      List.length_nil, rosterIdSet, ne_eq, cs1, cs2, cs3, not_true, if_true, if_false]
    simp only [emitPlacement, placementOf, List.length_cons, List.length_nil,
      pyMaxByPoints_pair, pyMinByPoints_pair, c5, c6, c7, c8, if_true, if_false]
    simp

/-- C8: with no semifinal winners identifiable (no semifinal week
recorded), final-week matchups are ordered by ascending `matchup_id`; the
first is the championship (placement 1) and the second, if any, the
third-place game (placement 3); in each resolved pairing the higher scorer
is winner, the other loser, both drawn from that pairing's participants. -/
theorem determine_placements_fallback_ordering
    (ew ps ma mb rA rB rC rD pA pB pC pD : Int) (tk : List (Json × Int))
    (hm : ma < mb) (hA : pA > pB) (hC : pC > pD) :
    determinePlacements [(ew, [⟨rA, ma, pA⟩, ⟨rB, ma, pB⟩, ⟨rC, mb, pC⟩, ⟨rD, mb, pD⟩])]
        ps ew tk
      = [⟨2, 1, rA, rB, rA, rB, 1⟩, ⟨2, 2, rC, rD, rC, rD, 3⟩]
    ∧ determinePlacements [(ew, [⟨rA, ma, pA⟩, ⟨rB, ma, pB⟩])] ps ew tk
      = [⟨2, 1, rA, rB, rA, rB, 1⟩] := by
  have cm : (ma = mb) = False := eq_false (by omega)
  have cA1 : (pA < pB) = False := eq_false (lt_asymm hA)
  have cA2 : (pB < pA) = True := eq_true hA
  have cC1 : (pC < pD) = False := eq_false (lt_asymm hC)
  have cC2 : (pD < pC) = True := eq_true hC
  constructor
  · have h1 : findWeek [(ew, [⟨rA, ma, pA⟩, ⟨rB, ma, pB⟩, ⟨rC, mb, pC⟩, ⟨rD, mb, pD⟩])] ew
        = some [⟨rA, ma, pA⟩, ⟨rB, ma, pB⟩, ⟨rC, mb, pC⟩, ⟨rD, mb, pD⟩] := by
      simp only [findWeek, List.foldl, eq_self_iff_true, if_true]
    have h2 : findWeek [(ew, [⟨rA, ma, pA⟩, ⟨rB, ma, pB⟩, ⟨rC, mb, pC⟩, ⟨rD, mb, pD⟩])]
        (ew - 1) = none := by
      simp only [findWeek, List.foldl, eq_false (by omega : ¬(ew = ew - 1)), if_false]
    have hgf : groupByMid [⟨rA, ma, pA⟩, ⟨rB, ma, pB⟩, ⟨rC, mb, pC⟩, ⟨rD, mb, pD⟩]
        = [(ma, [⟨rA, ma, pA⟩, ⟨rB, ma, pB⟩]), (mb, [⟨rC, mb, pC⟩, ⟨rD, mb, pD⟩])] := by
      simp only [groupByMid, List.foldl, addToGroup, cm, eq_self_iff_true, if_true, if_false, List.singleton_append]
    rw [determinePlacements, h1, h2]
    simp only [List.isEmpty_cons, Bool.false_eq_true, if_false, hgf]
    rw [if_neg (by simp : ¬(∅ : Finset Int).Nonempty)]
    simp only [List.map, List.insertionSort, List.orderedInsert]
    rw [if_pos (le_of_lt hm)]
    simp only [List.head?, List.get?, lookupGroup, cm, eq_self_iff_true, if_true, if_false]
    simp only [emitPlacement, placementOf, List.length_cons, List.length_nil,
      pyMaxByPoints_pair, pyMinByPoints_pair, gt_iff_lt, cA1, cA2, cC1, cC2,
      if_true, if_false]
    simp
  · have h1 : findWeek [(ew, [⟨rA, ma, pA⟩, ⟨rB, ma, pB⟩])] ew
        = some [⟨rA, ma, pA⟩, ⟨rB, ma, pB⟩] := by
      simp only [findWeek, List.foldl, eq_self_iff_true, if_true]
    have h2 : findWeek [(ew, [⟨rA, ma, pA⟩, ⟨rB, ma, pB⟩])] (ew - 1) = none := by
      simp only [findWeek, List.foldl, eq_false (by omega : ¬(ew = ew - 1)), if_false]
    have hgf : groupByMid [⟨rA, ma, pA⟩, ⟨rB, ma, pB⟩]
        = [(ma, [⟨rA, ma, pA⟩, ⟨rB, ma, pB⟩])] := by
      simp only [groupByMid, List.foldl, addToGroup, eq_self_iff_true, if_true, List.singleton_append]
    rw [determinePlacements, h1, h2]
    simp only [List.isEmpty_cons, Bool.false_eq_true, if_false, hgf]
    rw [if_neg (by simp : ¬(∅ : Finset Int).Nonempty)]
    simp only [List.map, List.insertionSort, List.orderedInsert]
    simp only [List.head?, List.get?, lookupGroup, eq_self_iff_true, if_true]
    simp only [emitPlacement, placementOf, List.length_cons, List.length_nil,
      pyMaxByPoints_pair, pyMinByPoints_pair, gt_iff_lt, cA1, cA2, if_true, if_false]
    simp

/-- C9: when a resolved pairing's two participants have exactly equal
points, the pairing's first entry is selected as both winner and loser, so
the emitted placement has `t1 = t2 = w = l`, all equal to that entry's
roster id (conjuncts 1–2); in a tied semifinal the first participant
enters both the winner and loser sets and the second participant enters
neither (conjuncts 3–6). -/
theorem determine_placements_tie_first_entry
    (ew ps mm r1 r2 rA rB p q : Int) (tk : List (Json × Int)) (hne : r2 ≠ r1) :
    determinePlacements [(ew, [⟨rA, mm, p⟩, ⟨rB, mm, p⟩])] ps ew tk
      = [⟨2, 1, rA, rA, rA, rA, 1⟩]
    ∧ (∀ (a b : MatchupEntry) (m pl : Int), a.points = b.points →
        placementOf [a, b] m pl
          = ⟨2, m, a.roster_id, a.roster_id, a.roster_id, a.roster_id, pl⟩)
    ∧ (semiSets [⟨r1, mm, q⟩, ⟨r2, mm, q⟩]).1 = {r1}
    ∧ (semiSets [⟨r1, mm, q⟩, ⟨r2, mm, q⟩]).2 = {r1}
    ∧ r2 ∉ (semiSets [⟨r1, mm, q⟩, ⟨r2, mm, q⟩]).1
    ∧ r2 ∉ (semiSets [⟨r1, mm, q⟩, ⟨r2, mm, q⟩]).2 := by
  have ctie : (p < p) = False := eq_false (lt_irrefl p)
  have ctie' : (q < q) = False := eq_false (lt_irrefl q)
  have hsemi : semiSets [⟨r1, mm, q⟩, ⟨r2, mm, q⟩] = (insert r1 ∅, insert r1 ∅) := by
    have hgq : groupByMid [⟨r1, mm, q⟩, ⟨r2, mm, q⟩]
        = [(mm, [⟨r1, mm, q⟩, ⟨r2, mm, q⟩])] := by
      simp only [groupByMid, List.foldl, addToGroup, eq_self_iff_true, if_true, List.singleton_append]
    simp only [semiSets, hgq, List.foldl, List.singleton_append, List.length_cons,
      List.length_nil, pyMaxByPoints_pair, pyMinByPoints_pair, gt_iff_lt,
      ctie', if_true, if_false, if_pos rfl]
  refine ⟨?_, ?_, ?_, ?_, ?_, ?_⟩
  · have h1 : findWeek [(ew, [⟨rA, mm, p⟩, ⟨rB, mm, p⟩])] ew
        = some [⟨rA, mm, p⟩, ⟨rB, mm, p⟩] := by
      simp only [findWeek, List.foldl, eq_self_iff_true, if_true]
    have h2 : findWeek [(ew, [⟨rA, mm, p⟩, ⟨rB, mm, p⟩])] (ew - 1) = none := by
      simp only [findWeek, List.foldl, eq_false (by omega : ¬(ew = ew - 1)), if_false]
    have hgf : groupByMid [⟨rA, mm, p⟩, ⟨rB, mm, p⟩]
        = [(mm, [⟨rA, mm, p⟩, ⟨rB, mm, p⟩])] := by
      simp only [groupByMid, List.foldl, addToGroup, eq_self_iff_true, if_true, List.singleton_append]
    rw [determinePlacements, h1, h2]
    simp only [List.isEmpty_cons, Bool.false_eq_true, if_false, hgf]
    rw [if_neg (by simp : ¬(∅ : Finset Int).Nonempty)]
    simp only [List.map, List.insertionSort, List.orderedInsert]
    simp only [List.head?, List.get?, lookupGroup, eq_self_iff_true, if_true]
    simp only [emitPlacement, placementOf, List.length_cons, List.length_nil,
      pyMaxByPoints_pair, pyMinByPoints_pair, gt_iff_lt, ctie, if_true, if_false]
    simp
  · intro a b m pl hab
    simp only [placementOf, pyMaxByPoints_pair, pyMinByPoints_pair, gt_iff_lt, hab,
      lt_irrefl, if_false]
  · rw [hsemi]; simp
  · rw [hsemi]; simp
  · rw [hsemi]; simp [hne]
  · rw [hsemi]; simp [hne]

/-- Witness for C7 at the claim's concrete scenario. -/
theorem determine_placements_semifinal_resolution_witness :
    determinePlacements [((16 : Int) - 1, [⟨1, 1, 80⟩, ⟨2, 1, 60⟩, ⟨3, 2, 90⟩, ⟨4, 2, 40⟩]),
       (16, [⟨1, 1, 70⟩, ⟨3, 1, 65⟩])] 14 16 []
      = [⟨2, 1, 1, 3, 1, 3, 1⟩] :=
  (determine_placements_semifinal_resolution 16 14 1 2 3 4 80 60 90 40 70 65 50 30 []
    (by decide) (by decide) (by decide) (by decide) (by decide) (by decide)).2.2.1

/-- Witness for C8 at a concrete two-matchup final week. -/
theorem determine_placements_fallback_ordering_witness :
    determinePlacements [((16 : Int), [⟨1, 1, 70⟩, ⟨3, 1, 65⟩, ⟨2, 2, 50⟩, ⟨4, 2, 30⟩])]
        14 16 []
      = [⟨2, 1, 1, 3, 1, 3, 1⟩, ⟨2, 2, 2, 4, 2, 4, 3⟩] :=
  (determine_placements_fallback_ordering 16 14 1 2 1 3 2 4 70 65 50 30 []
    (by decide) (by decide) (by decide)).1

/-- Witness for C9 at a concrete tied final-week matchup. -/
theorem determine_placements_tie_first_entry_witness :
    determinePlacements [((16 : Int), [⟨7, 1, 70⟩, ⟨8, 1, 70⟩])] 14 16 []
      = [⟨2, 1, 7, 7, 7, 7, 1⟩] :=
  (determine_placements_tie_first_entry 16 14 1 9 8 7 8 70 70 [] (by decide)).1

theorem attachKeys_some {ts : List Dict} {kts : List (Int × Dict)}
    (h : attachKeys ts = some kts) :
    kts.length = ts.length ∧ kts.map (·.2) = ts
    ∧ ∀ p ∈ kts, sortKeyOf p.2 = some p.1 := by
  induction ts generalizing kts with
  | nil =>
      simp only [attachKeys] at h
      cases h
      simp
  | cons t rest ih =>
      simp only [attachKeys, Option.bind_eq_bind, Option.bind_eq_some] at h
      obtain ⟨k, hk, kts', hkts', h⟩ := h
      cases h
      obtain ⟨h1, h2, h3⟩ := ih hkts'
      refine ⟨by simp [h1], by simp [h2], ?_⟩
      intro p hp
      rcases List.mem_cons.mp hp with rfl | hp'
      · exact hk
      · exact h3 p hp'

theorem tagIdx_length (i : Nat) (kts : List (Int × Dict)) :
    (tagIdx i kts).length = kts.length := by
  induction kts generalizing i with
  | nil => simp [tagIdx]
  | cons p rest ih => obtain ⟨k, t⟩ := p; simp [tagIdx, ih]

theorem tagIdx_map_snd (i : Nat) (kts : List (Int × Dict)) :
    (tagIdx i kts).map (·.2) = kts.map (·.2) := by
  induction kts generalizing i with
  | nil => simp [tagIdx]
  | cons p rest ih => obtain ⟨k, t⟩ := p; simp [tagIdx, ih]

theorem tagIdx_map_idx (i : Nat) (kts : List (Int × Dict)) :
    (tagIdx i kts).map (·.1.2) = List.range' i kts.length := by
  induction kts generalizing i with
  | nil => simp [tagIdx]
  | cons p rest ih => obtain ⟨k, t⟩ := p; simp [tagIdx, ih, List.range']

theorem tagIdx_mem {i : Nat} {kts : List (Int × Dict)} {p : (Int × Nat) × Dict}
    (h : p ∈ tagIdx i kts) : (p.1.1, p.2) ∈ kts := by
  induction kts generalizing i with
  | nil => simp [tagIdx] at h
  | cons q rest ih =>
      obtain ⟨k, t⟩ := q
      simp only [tagIdx, List.mem_cons] at h
      rcases h with rfl | h'
      · simp
      · exact List.mem_cons_of_mem _ (ih h')

theorem lexLE_total : ∀ a b, lexLE a b ∨ lexLE b a := by
  intro a b
  unfold lexLE
  rcases lt_trichotomy a.1.1 b.1.1 with h | h | h
  · exact Or.inl (Or.inl h)
  · rcases Nat.le_total a.1.2 b.1.2 with h' | h'
    · exact Or.inl (Or.inr ⟨h, h'⟩)
    · exact Or.inr (Or.inr ⟨h.symm, h'⟩)
  · exact Or.inr (Or.inl h)

theorem lexLE_trans : ∀ a b c, lexLE a b → lexLE b c → lexLE a c := by
  intro a b c hab hbc
  unfold lexLE at hab hbc ⊢
  rcases hab with h1 | ⟨h1, h1'⟩ <;> rcases hbc with h2 | ⟨h2, h2'⟩
  · exact Or.inl (lt_trans h1 h2)
  · exact Or.inl (h2 ▸ h1)
  · exact Or.inl (h1 ▸ h2)
  · exact Or.inr ⟨h1.trans h2, le_trans h1' h2'⟩

instance : IsTotal ((Int × Nat) × Dict) lexLE := ⟨lexLE_total⟩
instance : IsTrans ((Int × Nat) × Dict) lexLE := ⟨lexLE_trans⟩

theorem buildRosters_ids (lk : String) :
    ∀ (ts : List Dict) (i : Nat) (rs : List RosterRec),
      buildRosters lk i ts = some rs →
      rs.map (·.roster_id) = (List.range ts.length).map (fun j => ((i + j : Nat) : Int) + 1) := by
  intro ts
  induction ts with
  | nil =>
      intro i rs h
      simp only [buildRosters] at h
      cases h
      simp
  | cons t rest ih =>
      intro i rs h
      simp only [buildRosters, Option.bind_eq_bind, Option.bind_eq_some] at h
      obtain ⟨r, hr, rs', hrs', h⟩ := h
      cases h
      have hid : r.roster_id = (i : Int) + 1 := by
        simp only [mkRoster, Option.bind_eq_bind, Option.bind_eq_some] at hr
        obtain ⟨pf, hpf, pa, hpa, hr⟩ := hr
        cases hr
        rfl
      have := ih (i + 1) rs' hrs'
      simp only [List.map_cons, hid, this, List.length_cons, List.range_succ_eq_map,
        List.map_map]
      refine congrArg₂ List.cons (by push_cast; ring) (List.map_congr_left ?_)
      intro j hj
      simp only [Function.comp_apply]
      push_cast
      ring

theorem buildRosters_owner (lk : String) :
    ∀ (ts : List Dict) (i : Nat) (rs : List RosterRec),
      buildRosters lk i ts = some rs →
      rs.length = ts.length ∧
      ∀ j, j < ts.length →
        (rs.getD j ⟨0, .null, "", .null, .null, .null, 0, 0, 0, 0⟩).owner_id
          = managerIdOf (ts.getD j []) (i + j) := by
  intro ts
  induction ts with
  | nil =>
      intro i rs h
      simp only [buildRosters] at h
      cases h
      simp
  | cons t rest ih =>
      intro i rs h
      simp only [buildRosters, Option.bind_eq_bind, Option.bind_eq_some] at h
      obtain ⟨r, hr, rs', hrs', h⟩ := h
      cases h
      obtain ⟨hlen, hget⟩ := ih (i + 1) rs' hrs'
      refine ⟨by simp [hlen], ?_⟩
      intro j hj
      match j with
      | 0 =>
          simp only [List.getD_cons_zero, Nat.add_zero]
          simp only [mkRoster, Option.bind_eq_bind, Option.bind_eq_some] at hr
          obtain ⟨pf, hpf, pa, hpa, hr⟩ := hr
          cases hr
          rfl
      | (j' + 1) =>
          simp only [List.getD_cons_succ]
          have := hget j' (by simpa using Nat.lt_of_succ_lt_succ hj)
          rw [this]
          congr 1
          omega

theorem buildUsers_get :
    ∀ (ts : List Dict) (i : Nat),
      (buildUsers i ts).length = ts.length ∧
      ∀ j, j < ts.length →
        (buildUsers i ts).getD j ⟨.null, .null, .null, .null⟩
          = mkUser (i + j) (ts.getD j []) := by
  intro ts
  induction ts with
  | nil => intro i; simp [buildUsers]
  | cons t rest ih =>
      intro i
      obtain ⟨hlen, hget⟩ := ih (i + 1)
      refine ⟨by simp [buildUsers, hlen], ?_⟩
      intro j hj
      match j with
      | 0 => simp [buildUsers]
      | (j' + 1) =>
          simp only [buildUsers, List.getD_cons_succ]
          rw [hget j' (by simpa using Nat.lt_of_succ_lt_succ hj)]
          congr 1
          omega

theorem buildWeeks_get (fetch : Int → Option Json) (tkMap : List (Json × Int))
    (regular : Int) (i : Nat) (hi : i < regular.toNat) :
    (buildWeeks fetch tkMap regular).getD i []
      = (match fetch ((i : Int) + 1) with
         | none => []
         | some sb => parseScoreboard sb tkMap) := by
  have hlt : i < (buildWeeks fetch tkMap regular).length := by
    rw [buildWeeks_length]; exact hi
  rw [List.getD_eq_getElem _ _ hlt]
  simp only [buildWeeks, List.getElem_map, List.getElem_range]

theorem parseTeamEntry_truthy {e : Json} {t : Dict} (h : parseTeamEntry e = some t) :
    jsonTruthy (dictGetD t "team_key" .null) = true := by
  simp only [parseTeamEntry] at h
  split at h
  · cases h
  · split at h
    · rename_i hcond
      cases h
      exact hcond
    · cases h

theorem except_toOption_some {α : Type} {x : Except Unit α} {a : α}
    (h : x.toOption = some a) : x = .ok a := by
  cases x with
  | error e => simp [Except.toOption] at h
  | ok b => simp only [Except.toOption] at h; cases h; rfl

theorem teamsLoop_mem {tdkvs : Dict} :
    ∀ (is : List Nat) (l : List Dict), teamsLoop tdkvs is = .ok l →
      ∀ t ∈ l, ∃ e, parseTeamEntry e = some t := by
  intro is
  induction is with
  | nil =>
      intro l h t ht
      simp only [teamsLoop] at h
      cases h
      simp at ht
  | cons i rest ih =>
      intro l h t ht
      simp only [teamsLoop] at h
      obtain ⟨te, hte, h⟩ := except_bind_ok h
      obtain ⟨rest', hrest', h⟩ := except_bind_ok h
      revert h
      cases hpt : parseTeamEntry te with
      | some t' =>
          intro h
          cases h
          rcases List.mem_cons.mp ht with rfl | hmem
          · exact ⟨te, hpt⟩
          · exact ih rest' hrest' t hmem
      | none =>
          intro h
          cases h
          exact ih l hrest' t ht

theorem teamsFromTeamsData_mem {td : Json} {l : List Dict}
    (h : teamsFromTeamsData td = .ok l) :
    ∀ t ∈ l, ∃ e, parseTeamEntry e = some t := by
  intro t ht
  simp only [teamsFromTeamsData] at h
  split at h
  · obtain ⟨n, hn, h⟩ := except_bind_ok h
    exact teamsLoop_mem _ _ h t ht
  · cases h

theorem standingsItemTeams_mem {it : Json} {l : List Dict}
    (h : standingsItemTeams it = .ok l) :
    ∀ t ∈ l, ∃ e, parseTeamEntry e = some t := by
  intro t ht
  simp only [standingsItemTeams] at h
  split at h
  · split at h
    · exact teamsFromTeamsData_mem h t ht
    · cases h; simp at ht
  · cases h; simp at ht

theorem standingsItemsLoop_mem :
    ∀ (items : List Json) (l : List Dict), standingsItemsLoop items = .ok l →
      ∀ t ∈ l, ∃ e, parseTeamEntry e = some t := by
  intro items
  induction items with
  | nil =>
      intro l h t ht
      simp only [standingsItemsLoop] at h
      cases h
      simp at ht
  | cons it rest ih =>
      intro l h t ht
      simp only [standingsItemsLoop] at h
      obtain ⟨cur, hcur, h⟩ := except_bind_ok h
      obtain ⟨rest', hrest', h⟩ := except_bind_ok h
      cases h
      rcases List.mem_append.mp ht with hmem | hmem
      · exact standingsItemTeams_mem hcur t hmem
      · exact ih rest' hrest' t hmem

theorem standingsTeams_mem {ld : Json} {teams : List Dict}
    (h : standingsTeams ld = .ok teams) :
    ∀ t ∈ teams, ∃ e, parseTeamEntry e = some t := by
  intro t ht
  simp only [standingsTeams] at h
  obtain ⟨n, hn, h⟩ := except_bind_ok h
  split at h
  · obtain ⟨x, hx, h⟩ := except_bind_ok h
    split at h
    · split at h
      · exact standingsItemsLoop_mem _ _ h t ht
      · cases h; simp at ht
    · cases h; simp at ht
  · cases h; simp at ht

theorem parseStandings_teams_mem {data : Json} {li : Dict} {teams : List Dict}
    (h : parseStandings data = some (li, teams)) :
    ∀ t ∈ teams, ∃ e, parseTeamEntry e = some t := by
  intro t ht
  have h' := except_toOption_some h
  obtain ⟨fc, hfc, h'⟩ := except_bind_ok h'
  obtain ⟨ld, hld, h'⟩ := except_bind_ok h'
  obtain ⟨li', hli', h'⟩ := except_bind_ok h'
  obtain ⟨ts', hts', h'⟩ := except_bind_ok h'
  cases h'
  exact standingsTeams_mem hts' t ht

/-! ## Claim C1: roster ids -/

/-- C1: for every successfully assembled season, `roster_id` values are
exactly the contiguous range `1..N`, where `N` is the number of
successfully parsed team entries (each of which necessarily carries a
non-empty `team_key`); the assignment is by the stable sort of the teams
by effective rank (`int(rank or 99)`) ascending with ties broken by
discovery order (the sorted tagged list is a permutation of the
discovery-tagged teams and is sorted by the lexicographic
(key, discovery-index) order), `roster_id = sorted position + 1`, and
roster 1's effective rank is ≤ every other roster's effective rank. -/
theorem roster_ids_contiguous_rank_sorted
    (lk : String) (sjs stjs : Json) (fetch : Int → Option Json) (sd : SeasonData)
    (li : Dict) (teams : List Dict)
    (h : extractSeasonData lk sjs stjs fetch = some sd)
    (hp : parseStandings stjs = some (li, teams)) :
    sd.rosters.map (·.roster_id)
      = (List.range teams.length).map (fun i => ((i : Nat) : Int) + 1)
    ∧ (∀ t ∈ teams, jsonTruthy (dictGetD t "team_key" .null) = true)
    ∧ (∃ kts ts,
        attachKeys teams = some kts
        ∧ kts.map (·.2) = teams
        ∧ (∀ p ∈ kts, sortKeyOf p.2 = some p.1)
        ∧ (tagIdx 0 kts).map (·.1.2) = List.range' 0 teams.length
        ∧ sortTeamsByRank teams = some ts
        ∧ ts = (List.insertionSort lexLE (tagIdx 0 kts)).map (·.2)
        ∧ List.Perm (List.insertionSort lexLE (tagIdx 0 kts)) (tagIdx 0 kts)
        ∧ (List.insertionSort lexLE (tagIdx 0 kts)).Sorted lexLE
        ∧ buildRosters lk 0 ts = some sd.rosters
        ∧ List.Sorted (· ≤ ·) ((List.insertionSort lexLE (tagIdx 0 kts)).map (·.1.1))
        ∧ (∀ (hd : Int) (krest : List Int),
            (List.insertionSort lexLE (tagIdx 0 kts)).map (·.1.1) = hd :: krest →
            ∀ k ∈ krest, hd ≤ k)) := by
  obtain ⟨nt, ps, ew, li', teams', ts, rosters, tkMap, heff, hpr, hts, hrs, htk, hsd⟩ :=
    extractSeasonData_inv h
  rw [hp] at hpr
  obtain ⟨h1, h2⟩ : li = li' ∧ teams = teams' := by
    simpa only [Option.some.injEq, Prod.mk.injEq] using hpr
  subst h1
  subst h2
  obtain ⟨kts, hkts, hts'⟩ : ∃ kts, attachKeys teams = some kts
      ∧ ts = (List.insertionSort lexLE (tagIdx 0 kts)).map (·.2) := by
    simp only [sortTeamsByRank, Option.map_eq_some'] at hts
    obtain ⟨kts, hkts, hmap⟩ := hts
    exact ⟨kts, hkts, hmap.symm⟩
  obtain ⟨hklen, hkmap, hkmem⟩ := attachKeys_some hkts
  have hsorted : (List.insertionSort lexLE (tagIdx 0 kts)).Sorted lexLE :=
    List.sorted_insertionSort lexLE _
  have hperm : List.Perm (List.insertionSort lexLE (tagIdx 0 kts)) (tagIdx 0 kts) :=
    List.perm_insertionSort lexLE _
  have htslen : ts.length = teams.length := by
    rw [hts', List.length_map, List.length_insertionSort, tagIdx_length, hklen]
  have hkeys : List.Sorted (· ≤ ·)
      ((List.insertionSort lexLE (tagIdx 0 kts)).map (·.1.1)) := by
    refine List.Pairwise.map _ ?_ hsorted
    intro a b hab
    rcases hab with hlt | ⟨heq, _⟩
    · exact le_of_lt hlt
    · exact le_of_eq heq
  have hsdr : sd.rosters = rosters := by rw [hsd]
  refine ⟨?_, ?_, kts, ts, hkts, hkmap, hkmem, by rw [tagIdx_map_idx, hklen],
    hts, hts', hperm, hsorted, by rw [hsdr]; exact hrs, hkeys, ?_⟩
  · have := buildRosters_ids lk ts 0 rosters hrs
    rw [hsdr, this, htslen]
    simp
  · intro t ht
    obtain ⟨e, he⟩ := parseStandings_teams_mem hp t ht
    exact parseTeamEntry_truthy he
  · intro hd krest hk k hkmem'
    have : List.Sorted (· ≤ ·) (hd :: krest) := by rw [← hk]; exact hkeys
    exact (List.sorted_cons.mp this).1 k hkmem'

/-! ## Concrete sample season used by several witnesses -/

/-- A standings team entry whose manager has a nickname but no guid. -/
def sampleTeamEntry (k nick : String) (rank : Int) : Json :=
  .arr [ .arr [ .obj [("team_key", .str k)],
                .obj [("managers", .arr [ .obj [("manager",
                   .obj [("nickname", .str nick)])] ])] ],
         .obj [("team_standings", .obj [("rank", .num rank),
               ("outcome_totals", .obj []), ("points_for", .num 0),
               ("points_against", .num 0)])] ]

/-- A standings response with two teams whose managers both lack a guid
(so both teams get the manager id `""`). -/
def sampleStandings : Json :=
  .obj [("fantasy_content", .obj [("league", .arr [
    .obj [],
    .obj [("standings", .arr [ .obj [("teams", .obj [
       ("count", .num 2),
       ("0", .obj [("team", sampleTeamEntry "A" "alice" 1)]),
       ("1", .obj [("team", sampleTeamEntry "B" "bob" 2)])])] ])]
  ])])]

/-- The parsed team dict for team A of `sampleStandings`. -/
def sampleParsedTeamA : Dict :=
  [("team_key", .str "A"), ("manager_name", .str "alice"),
   ("manager_guid", .str ""), ("rank", .num 1), ("wins", .num 0),
   ("losses", .num 0), ("ties", .num 0), ("points_for", .num 0),
   ("points_against", .num 0)]

/-- The parsed team dict for team B of `sampleStandings`. -/
def sampleParsedTeamB : Dict :=
  [("team_key", .str "B"), ("manager_name", .str "bob"),
   ("manager_guid", .str ""), ("rank", .num 2), ("wins", .num 0),
   ("losses", .num 0), ("ties", .num 0), ("points_for", .num 0),
   ("points_against", .num 0)]

/-- The season assembled from `sampleStandings` with empty settings and
every weekly fetch failing. -/
def sampleSeason : SeasonData :=
  { leagueId := "lk", totalRosters := 2, playoffWeekStart := 14,
    users := [⟨.str "", .str "alice", .null, .str ""⟩,
              ⟨.str "", .str "bob", .null, .str ""⟩],
    rosters := [⟨1, .str "", "lk", .num 0, .num 0, .num 0, 0, 0, 0, 0⟩,
                ⟨2, .str "", "lk", .num 0, .num 0, .num 0, 0, 0, 0, 0⟩],
    matchups := List.replicate 13 [],
    winnersBracket := [champPlacement],
    rosterToOwner := [(1, .str ""), (2, .str "")] }


/-! ## Claim C3 (corrected): users are per team, not per distinct manager -/

/-- C3 counterexample: two teams sharing the manager id `""` produce two
User entries with that same id, so the users list does not contain exactly
one User per distinct manager id. -/
theorem users_unique_per_manager_counterexample :
    extractSeasonData "lk" (.obj []) sampleStandings (fun _ => none) = some sampleSeason
    ∧ sampleSeason.users.map (·.user_id) = [.str "", .str ""]
    ∧ ¬ (sampleSeason.users.map (·.user_id)).Nodup := by
  refine ⟨rfl, rfl, ?_⟩
  intro hnd
  rw [show sampleSeason.users.map (·.user_id) = [.str "", .str ""] from rfl] at hnd
  exact (List.nodup_cons.mp hnd).1 (List.mem_singleton.mpr rfl)

/-- C3 (amended): the users list contains exactly one User per *team* —
`users` has the same length as the sorted team list, and the `j`-th user
is built from the `j`-th sorted team (its manager id, display name,
avatar and team-name metadata); teams sharing a manager id therefore
produce one User entry each, with the same `user_id`. -/
theorem users_one_per_sorted_team
    (lk : String) (sjs stjs : Json) (fetch : Int → Option Json) (sd : SeasonData)
    (li : Dict) (teams ts : List Dict)
    (h : extractSeasonData lk sjs stjs fetch = some sd)
    (hp : parseStandings stjs = some (li, teams))
    (hts : sortTeamsByRank teams = some ts) :
    sd.users.length = ts.length
    ∧ ∀ j, j < ts.length →
        sd.users.getD j ⟨.null, .null, .null, .null⟩ = mkUser j (ts.getD j []) := by
  obtain ⟨nt, ps, ew, li', teams', ts', rosters, tkMap, heff, hpr, hts', hrs, htk, hsd⟩ :=
    extractSeasonData_inv h
  rw [hp] at hpr
  obtain ⟨h1, h2⟩ : li = li' ∧ teams = teams' := by
    simpa only [Option.some.injEq, Prod.mk.injEq] using hpr
  subst h1; subst h2
  rw [hts] at hts'
  obtain h3 : ts = ts' := by simpa only [Option.some.injEq] using hts'
  subst h3
  have husers : sd.users = buildUsers 0 ts := by rw [hsd]
  obtain ⟨hlen, hget⟩ := buildUsers_get ts 0
  refine ⟨by rw [husers, hlen], ?_⟩
  intro j hj
  rw [husers, hget j hj]
  simp

/-- Witness for the amended C3 at `sampleStandings`: two teams, two users,
the first user built from the first sorted team. -/
theorem users_one_per_sorted_team_witness :
    sampleSeason.users.length = [sampleParsedTeamA, sampleParsedTeamB].length
    ∧ sampleSeason.users.getD 0 ⟨.null, .null, .null, .null⟩
        = mkUser 0 ([sampleParsedTeamA, sampleParsedTeamB].getD 0 []) :=
  ⟨(users_one_per_sorted_team "lk" (.obj []) sampleStandings (fun _ => none)
      sampleSeason [] [sampleParsedTeamA, sampleParsedTeamB]
      [sampleParsedTeamA, sampleParsedTeamB] rfl rfl rfl).1,
   (users_one_per_sorted_team "lk" (.obj []) sampleStandings (fun _ => none)
      sampleSeason [] [sampleParsedTeamA, sampleParsedTeamB]
      [sampleParsedTeamA, sampleParsedTeamB] rfl rfl rfl).2 0 (by decide)⟩

/-! ## Claim C5: weekly matchup alignment -/

/-- C5: an assembled season has exactly `playoff_start_week - 1` weekly
matchup lists, one per week `1..regular_season_weeks` in order; a week
whose fetch fails contributes an explicit `[]` in its position, a fetched
week contributes exactly `_parse_scoreboard`'s output (so a week with zero
valid matchups contributes `[]`), and no weekly outcome can abort the
season: extraction succeeds for every fetch function whatsoever. -/
theorem weekly_matchups_alignment
    (lk : String) (sjs stjs : Json) (fetch : Int → Option Json) (sd : SeasonData)
    (nt ps ew : Int)
    (h : extractSeasonData lk sjs stjs fetch = some sd)
    (heff : effectiveLeagueSettings sjs = some (nt, ps, ew)) :
    sd.matchups.length = (ps - 1).toNat
    ∧ (∀ i, i < (ps - 1).toNat → fetch ((i : Int) + 1) = none →
        sd.matchups.getD i [] = [])
    ∧ (∃ tkm, ∀ i, i < (ps - 1).toNat → ∀ sb, fetch ((i : Int) + 1) = some sb →
        sd.matchups.getD i [] = parseScoreboard sb tkm)
    ∧ (∀ fetch' : Int → Option Json,
        (extractSeasonData lk sjs stjs fetch').isSome = true) := by
  obtain ⟨nt', ps', ew', li, teams, ts, rosters, tkMap, heff', hpr, hts, hrs, htk, hsd⟩ :=
    extractSeasonData_inv h
  rw [heff] at heff'
  obtain ⟨h1, h2, h3⟩ : nt = nt' ∧ ps = ps' ∧ ew = ew' := by
    simpa only [Option.some.injEq, Prod.mk.injEq] using heff'
  subst h1; subst h2; subst h3
  have hm : sd.matchups = buildWeeks fetch tkMap (ps - 1) := by rw [hsd]
  refine ⟨by rw [hm, buildWeeks_length], ?_, ⟨tkMap, ?_⟩, ?_⟩
  · intro i hi hfail
    rw [hm, buildWeeks_get fetch tkMap (ps - 1) i hi, hfail]
  · intro i hi sb hsb
    rw [hm, buildWeeks_get fetch tkMap (ps - 1) i hi, hsb]
  · intro fetch'
    simp only [extractSeasonData, heff, hpr, hts, hrs, htk, Option.isSome_some]

/-- Witness for C5 at the sample season (every weekly fetch fails):
13 weeks, week 1 an explicit empty list. -/
theorem weekly_matchups_alignment_witness :
    sampleSeason.matchups.length = ((14 : Int) - 1).toNat
    ∧ sampleSeason.matchups.getD 0 [] = [] :=
  ⟨(weekly_matchups_alignment "lk" (.obj []) sampleStandings (fun _ => none)
      sampleSeason 10 14 16 rfl rfl).1,
   (weekly_matchups_alignment "lk" (.obj []) sampleStandings (fun _ => none)
      sampleSeason 10 14 16 rfl rfl).2.1 0 (by decide) rfl⟩

/-! ## Claim C10: the synthesized manager id fallback -/

/-- A team entry with only a key and manager info. -/
def managersOnlyEntry (k : String) (mgrData : Json) : Json :=
  .arr [ .arr [ .obj [("team_key", .str k)],
                .obj [("managers", .arr [ .obj [("manager", mgrData)] ])] ] ]

/-- C10: the synthesized fallback `"yahoo_" + team_key` is the manager id
exactly when the `manager_guid` key is absent (conjuncts 1–2); when
manager info is present but lacks a `guid`, `_parse_team_entry` stores
`manager_guid` as the (present) empty string (conjunct 3); and
`extract_season_data` then uses `""` verbatim as the team's `user_id` and
`owner_id`, so every such team shares the owner id `""` (conjunct 4). -/
theorem manager_guid_fallback_and_empty
    :
    (∀ (team : Dict) (idx : Nat) (g : Json), dictGet team "manager_guid" = some g →
        managerIdOf team idx = g)
    ∧ (∀ (team : Dict) (idx : Nat), dictGet team "manager_guid" = none →
        managerIdOf team idx
          = .str ("yahoo_" ++ pyStr (dictGetD team "team_key" (.num (idx : Int)))))
    ∧ (∀ (k : String) (mkvs : Dict), k ≠ "" → dictGet mkvs "guid" = none →
        parseTeamEntry (managersOnlyEntry k (.obj mkvs))
          = some [("team_key", .str k),
                  ("manager_name", dictGetD mkvs "nickname" (.str "Unknown")),
                  ("manager_guid", .str "")])
    ∧ (∀ (lk : String) (sjs stjs : Json) (fetch : Int → Option Json) (sd : SeasonData)
         (li : Dict) (teams ts : List Dict),
        extractSeasonData lk sjs stjs fetch = some sd →
        parseStandings stjs = some (li, teams) →
        sortTeamsByRank teams = some ts →
        ∀ j, j < ts.length → dictGet (ts.getD j []) "manager_guid" = some (.str "") →
          (sd.users.getD j ⟨.null, .null, .null, .null⟩).user_id = .str ""
          ∧ (sd.rosters.getD j ⟨0, .null, "", .null, .null, .null, 0, 0, 0, 0⟩).owner_id
              = .str "") := by
  have hpresent : ∀ (team : Dict) (idx : Nat) (g : Json),
      dictGet team "manager_guid" = some g → managerIdOf team idx = g := by
    intro team idx g hg
    simp only [managerIdOf, hg]
  refine ⟨hpresent, ?_, ?_, ?_⟩
  · intro team idx habsent
    simp only [managerIdOf, habsent]
  · intro k mkvs hk hguid
    simp [parseTeamEntry, managersOnlyEntry, pyIter, List.foldlM, teamItemStep,
      applyMetaSub, dictGet, dictSet, pyDictGetD, pyDictGet, dictGetD, hguid,
      liftO, bind, Except.bind, pure, Except.pure, jsonTruthy, hk]
  · intro lk sjs stjs fetch sd li teams ts h hp hts j hj hgj
    obtain ⟨nt, ps, ew, li', teams', ts', rosters, tkMap, heff, hpr, hts', hrs, htk, hsd⟩ :=
      extractSeasonData_inv h
    rw [hp] at hpr
    obtain ⟨h1, h2⟩ : li = li' ∧ teams = teams' := by
      simpa only [Option.some.injEq, Prod.mk.injEq] using hpr
    subst h1; subst h2
    rw [hts] at hts'
    obtain h3 : ts = ts' := by simpa only [Option.some.injEq] using hts'
    subst h3
    constructor
    · have husers : sd.users = buildUsers 0 ts := by rw [hsd]
      obtain ⟨hlen, hget⟩ := buildUsers_get ts 0
      rw [husers, hget j hj]
      simp only [mkUser]
      rw [hpresent _ _ _ (by simpa using hgj)]
    · have hrosters : sd.rosters = rosters := by rw [hsd]
      obtain ⟨hlen, hget⟩ := buildRosters_owner lk ts 0 rosters hrs
      rw [hrosters, hget j hj]
      rw [hpresent _ _ _ (by simpa using hgj)]

/-- Witness for C10: a parsed entry whose manager lacks a guid stores
`manager_guid = ""`, and the sample season's first team gets user and
owner id `""`. -/
theorem manager_guid_fallback_and_empty_witness :
    parseTeamEntry (managersOnlyEntry "A" (.obj [("nickname", Json.str "alice")]))
      = some [("team_key", .str "A"),
              ("manager_name",
                dictGetD [("nickname", Json.str "alice")] "nickname" (.str "Unknown")),
              ("manager_guid", .str "")]
    ∧ (sampleSeason.users.getD 0 ⟨.null, .null, .null, .null⟩).user_id = .str ""
    ∧ (sampleSeason.rosters.getD 0
        ⟨0, .null, "", .null, .null, .null, 0, 0, 0, 0⟩).owner_id = .str "" := by
  refine ⟨manager_guid_fallback_and_empty.2.2.1 "A" [("nickname", Json.str "alice")]
      (by decide) rfl, ?_, ?_⟩
  · exact (manager_guid_fallback_and_empty.2.2.2 "lk" (.obj []) sampleStandings
      (fun _ => none) sampleSeason [] [sampleParsedTeamA, sampleParsedTeamB]
      [sampleParsedTeamA, sampleParsedTeamB] rfl rfl rfl 0 (by decide) rfl).1
  · exact (manager_guid_fallback_and_empty.2.2.2 "lk" (.obj []) sampleStandings
      (fun _ => none) sampleSeason [] [sampleParsedTeamA, sampleParsedTeamB]
      [sampleParsedTeamA, sampleParsedTeamB] rfl rfl rfl 0 (by decide) rfl).2

/-- Witness for C1 at the sample season: roster ids are exactly `[1, 2]`. -/
theorem roster_ids_contiguous_rank_sorted_witness :
    sampleSeason.rosters.map (·.roster_id)
      = (List.range [sampleParsedTeamA, sampleParsedTeamB].length).map
          (fun i => ((i : Nat) : Int) + 1) :=
  (roster_ids_contiguous_rank_sorted "lk" (.obj []) sampleStandings (fun _ => none)
    sampleSeason [] [sampleParsedTeamA, sampleParsedTeamB] rfl rfl).1
